import Mathlib

/-!
A shallow embedding of the Odoo JSON-RPC client layer of the movie-app
repository (`lib/odooClient.ts`, modelled from `src/unnamed/part_003`, and the
legacy fixed-account client embedded in `app/(tabs)/search.tsx`).

JavaScript strings are modelled as `List Char` (`Str`); JavaScript numbers as
`JsNum` (a rational together with the non-finite values NaN and ±Infinity);
loose JSON-ish runtime values as `JsVal`.  Asynchronous network interaction is
modelled by explicit lists of transport responses (`RpcResp`) consumed in
order, and each operation returns the list of requests it actually issued
(its trace) together with its JavaScript result or thrown error message.
-/

/-- JavaScript strings are modelled as lists of characters. -/
abbrev Str := List Char

/-- Turn a Lean string literal into the `List Char` model. -/
def S (s : String) : Str := s.data

/-- JavaScript `String.prototype.trim`: drop whitespace from both ends. -/
def jsTrim (s : Str) : Str :=
  ((s.dropWhile Char.isWhitespace).reverse.dropWhile Char.isWhitespace).reverse

/-- Lower-case every character (ASCII `toLowerCase`). -/
def lowerStr (s : Str) : Str := s.map Char.toLower

example : jsTrim (S "  a b  ") = S "a b" := by decide
example : lowerStr (S "HTTP") = S "http" := by decide

/-- Boolean test that `p` is a prefix of the second argument. -/
def startsWithStr : Str → Str → Bool
  | [], _ => true
  | _ :: _, [] => false
  | p :: ps, c :: cs => p == c && startsWithStr ps cs

/-- JavaScript numbers: a rational, or one of the non-finite values. -/
inductive JsNum where
  | fin (q : ℚ)
  | nan
  | inf
  | ninf
deriving DecidableEq, Repr

/-- JavaScript `Number.isFinite`. -/
def JsNum.finite : JsNum → Bool
  | fin _ => true
  | _ => false

/-- JavaScript `n < 0` (false for NaN, true for -Infinity). -/
def JsNum.negative : JsNum → Bool
  | fin q => decide (q < 0)
  | ninf => true
  | _ => false

/-- JavaScript `n > 0` (false for NaN, true for Infinity). -/
def JsNum.positive : JsNum → Bool
  | fin q => decide (0 < q)
  | inf => true
  | _ => false

/-- JavaScript `Number.isInteger`. -/
def JsNum.integer : JsNum → Bool
  | fin q => q.den == 1
  | _ => false

/-- Loose JSON-ish runtime values exchanged with the server. -/
inductive JsVal where
  | undef
  | null
  | bool (b : Bool)
  | num (n : JsNum)
  | str (s : Str)
  | arr (elems : List JsVal)
  | obj (fields : List (Str × JsVal))
deriving Repr

/-- JavaScript truthiness of a runtime value. -/
def JsVal.truthy : JsVal → Bool
  | undef => false
  | null => false
  | bool b => b
  | num n => !(n == .fin 0) && !(n == .nan)
  | str s => !s.isEmpty
  | arr _ => true
  | obj _ => true

example : (JsVal.arr [.str (S "a")]).truthy = true := by decide
example : (JsVal.num (.fin 0)).truthy = false := by decide

/-- Mirrors `trimTrailingSlash` (source line 97): `value.replace(/\/+$/, "")`. -/
def trimTrailingSlash (value : Str) : Str :=
  (value.reverse.dropWhile (· == '/')).reverse

/-- Case-insensitive test for the regex `/^https?:\/\//i`. -/
def hasHttpProto (s : Str) : Bool :=
  startsWithStr (S "http://") (lowerStr s) || startsWithStr (S "https://") (lowerStr s)

/-- Mirrors `ensureProtocol` (line 173): prepend `https://` when no scheme. -/
def ensureProtocol (value : Str) : Str :=
  if hasHttpProto value then value else S "https://" ++ value

/-- Result of `parseInputUrl` (lines 175–181). -/
structure ParsedInputUrl where
  protocol : Str
  host : Str
  path : Str
  query : Str
  hash : Str
deriving DecidableEq, Repr

/-- Splits off the scheme matched by `^(https?):\/\/` under the `i` flag,
returning the lower-cased scheme and the rest of the string. -/
def dropProto (s : Str) : Option (Str × Str) :=
  if startsWithStr (S "https://") (lowerStr s) then some (S "https", s.drop 8)
  else if startsWithStr (S "http://") (lowerStr s) then some (S "http", s.drop 7)
  else none

/-- Character class `[^\/?#]` of the URL regex. -/
def isHostChar (c : Char) : Bool := !(c == '/') && !(c == '?') && !(c == '#')

/-- Character class `[^?#]` of the URL regex. -/
def isPathChar (c : Char) : Bool := !(c == '?') && !(c == '#')

/-- The host/path/query/fragment groups of the URL regex (groups 2–5 of
`parseInputUrl`'s pattern), applied to the text after the scheme. -/
def parseHostRest (protocol rest : Str) : Option ParsedInputUrl :=
  let host := rest.takeWhile isHostChar
  let rest1 := rest.dropWhile isHostChar
  if host.isEmpty then none
  else
    let path := if rest1.head? == some '/' then rest1.takeWhile isPathChar else []
    let rest2 := if rest1.head? == some '/' then rest1.dropWhile isPathChar else rest1
    let query := if rest2.head? == some '?' then rest2.takeWhile (!· == '#') else []
    let rest3 := if rest2.head? == some '?' then rest2.dropWhile (!· == '#') else rest2
    some ⟨protocol, host, path, query, rest3⟩

/-- Mirrors `parseInputUrl` (lines 183–201): trim, default the scheme, then
match `^(https?):\/\/([^\/?#]+)(\/[^?#]*)?(\?[^#]*)?(#.*)?$` — rendered here
as a deterministic scan, which is equivalent because each group's character
class excludes the delimiters that open the following groups. -/
def parseInputUrl (value : Str) : Option ParsedInputUrl :=
  let trimmed := jsTrim value
  if trimmed.isEmpty then none
  else
    match dropProto (ensureProtocol trimmed) with
    | none => none
    | some (protocol, rest) => parseHostRest protocol rest

/-- Collapses every run of slashes to a single slash: `replace(/\/+/g, "/")`. -/
def collapseSlashes : Str → Str
  | [] => []
  | [c] => [c]
  | a :: b :: rest =>
    if a == '/' && b == '/' then collapseSlashes (b :: rest)
    else a :: collapseSlashes (b :: rest)

/-- JavaScript `split(sep)` on a single separator character. -/
def splitOnChar (sep : Char) : Str → List Str
  | [] => [[]]
  | c :: rest =>
    match splitOnChar sep rest with
    | [] => [[c]]
    | s :: ss => if c == sep then [] :: s :: ss else (c :: s) :: ss

/-- JavaScript `split(/[...]/)` on a class of separator characters. -/
def splitOnPred (sep : Char → Bool) : Str → List Str
  | [] => [[]]
  | c :: rest =>
    match splitOnPred sep rest with
    | [] => [[c]]
    | s :: ss => if sep c then [] :: s :: ss else (c :: s) :: ss

/-- JavaScript `Array.prototype.join` with a single-character separator. -/
def joinWithChar (sep : Char) : List Str → Str
  | [] => []
  | [s] => s
  | s :: t :: rest => s ++ sep :: joinWithChar sep (t :: rest)

/-- Mirrors `normalizePath` (lines 203–213): trim, collapse duplicate slashes,
strip trailing slashes, split into non-empty segments and rejoin. -/
def normalizePath (path : Str) : Str :=
  if path.isEmpty then []
  else if (jsTrim path).isEmpty then []
  else if ((splitOnChar '/' (trimTrailingSlash (collapseSlashes (jsTrim path)))).filter
      (fun s => !s.isEmpty)).isEmpty then []
  else
    '/' :: joinWithChar '/'
      ((splitOnChar '/' (trimTrailingSlash (collapseSlashes (jsTrim path)))).filter
        (fun s => !s.isEmpty))

/-- Mirrors `normalizeServerUrl` (lines 239–252); the thrown `Error`s are
modelled as `Except.error` carrying the exact message. -/
def normalizeServerUrl (raw : Str) : Except Str Str :=
  let trimmed := jsTrim raw
  if trimmed.isEmpty then .error (S "Server address is required.")
  else
    match parseInputUrl trimmed with
    | none => .error (S "Invalid server address.")
    | some parsed =>
      .ok (parsed.protocol ++ S "://" ++ parsed.host ++ normalizePath parsed.path)

example : normalizeServerUrl (S "my.co/app/?x=1#db=acme") = .ok (S "https://my.co/app") := rfl
example : normalizeServerUrl (S "HTTP://a.b//x///y/?q#f") = .ok (S "http://a.b/x/y") := rfl
example : normalizeServerUrl (S "   ") = .error (S "Server address is required.") := rfl
example : normalizeServerUrl (S "http:///x") = .error (S "Invalid server address.") := rfl

/-- Numeric value of a hexadecimal digit. -/
def hexDigitVal (c : Char) : Option Nat :=
  if '0' ≤ c ∧ c ≤ '9' then some (c.toNat - '0'.toNat)
  else if 'a' ≤ c ∧ c ≤ 'f' then some (c.toNat - 'a'.toNat + 10)
  else if 'A' ≤ c ∧ c ≤ 'F' then some (c.toNat - 'A'.toNat + 10)
  else none

/-- Reads one `%HH` escape, returning the byte and the remaining input. -/
def pctByte : Str → Option (Nat × Str)
  | '%' :: h1 :: h2 :: rest =>
    match hexDigitVal h1, hexDigitVal h2 with
    | some a, some b => some (16 * a + b, rest)
    | _, _ => none
  | _ => none

/-- Reads `n` UTF-8 continuation bytes, each written as a `%HH` escape. -/
def pctContBytes : Nat → Str → Option (List Nat × Str)
  | 0, s => some ([], s)
  | n + 1, s =>
    match pctByte s with
    | some (b, rest) =>
      if 0x80 ≤ b ∧ b < 0xC0 then
        match pctContBytes n rest with
        | some (bs, r) => some (b :: bs, r)
        | none => none
      else none
    | none => none

/-- Decodes one UTF-8 sequence whose lead byte is `b`, rejecting overlong
encodings, surrogates and out-of-range code points as `decodeURIComponent`
does. -/
def decodeUtf8Seq (b : Nat) (rest : Str) : Option (Char × Str) :=
  if b < 0x80 then some (Char.ofNat b, rest)
  else if 0xC0 ≤ b ∧ b < 0xE0 then
    match pctContBytes 1 rest with
    | some ([c1], r) =>
      let cp := (b - 0xC0) * 0x40 + (c1 - 0x80)
      if 0x80 ≤ cp then some (Char.ofNat cp, r) else none
    | _ => none
  else if 0xE0 ≤ b ∧ b < 0xF0 then
    match pctContBytes 2 rest with
    | some ([c1, c2], r) =>
      let cp := (b - 0xE0) * 0x1000 + (c1 - 0x80) * 0x40 + (c2 - 0x80)
      if 0x800 ≤ cp ∧ ¬(0xD800 ≤ cp ∧ cp ≤ 0xDFFF) then some (Char.ofNat cp, r) else none
    | _ => none
  else if 0xF0 ≤ b ∧ b < 0xF8 then
    match pctContBytes 3 rest with
    | some ([c1, c2, c3], r) =>
      let cp := (b - 0xF0) * 0x40000 + (c1 - 0x80) * 0x1000 + (c2 - 0x80) * 0x40 + (c3 - 0x80)
      if 0x10000 ≤ cp ∧ cp ≤ 0x10FFFF then some (Char.ofNat cp, r) else none
    | _ => none
  else none

/-- Fueled main loop of `decodeURIComponent`: characters other than `%` pass
through, `%`-escapes are decoded as UTF-8; any malformed escape fails. -/
def decodeURIAux : Nat → Str → Option Str
  | 0, s => if s.isEmpty then some [] else none
  | _ + 1, [] => some []
  | fuel + 1, '%' :: rest =>
    match pctByte ('%' :: rest) with
    | none => none
    | some (b, r1) =>
      match decodeUtf8Seq b r1 with
      | none => none
      | some (ch, r2) => (decodeURIAux fuel r2).map (ch :: ·)
  | fuel + 1, c :: rest => (decodeURIAux fuel rest).map (c :: ·)

/-- Mirrors `safeDecode` (lines 215–221): `decodeURIComponent` with the
original value returned when decoding throws. -/
def safeDecode (value : Str) : Str :=
  match decodeURIAux value.length value with
  | some d => d
  | none => value

example : safeDecode (S "a%20b") = S "a b" := rfl
example : safeDecode (S "a%2") = S "a%2" := rfl

/-- Last-write-wins field assignment on the association-list model of a
JavaScript object literal. -/
def setAssoc (m : List (Str × Str)) (k v : Str) : List (Str × Str) :=
  if m.any (fun p => p.1 == k) then m.map (fun p => if p.1 == k then (k, v) else p)
  else m ++ [(k, v)]

/-- Property lookup on the association-list model of a JavaScript object. -/
def getAssoc (m : List (Str × Str)) (k : Str) : Option Str :=
  (m.find? (fun p => p.1 == k)).map (·.2)

/-- The regex `replace(/^[?#]/, "")`: drop one leading `?` or `#`. -/
def stripLeadingParamMark (s : Str) : Str :=
  match s with
  | c :: rest => if c == '?' || c == '#' then rest else s
  | [] => []

/-- JavaScript `value.replace(/\+/g, " ")`. -/
def plusToSpace (s : Str) : Str := s.map (fun c => if c == '+' then ' ' else c)

/-- Mirrors `parseParams` (lines 223–237): strip the leading `?`/`#`, split on
`&`/`;`, split each pair at the first `=`, decode, and accumulate into an
object. -/
def parseParams (segment : Str) : List (Str × Str) :=
  if segment.isEmpty then []
  else
    let clean := stripLeadingParamMark segment
    if clean.isEmpty then []
    else
      (splitOnPred (fun c => c == '&' || c == ';') clean).foldl
        (fun acc pair =>
          if pair.isEmpty then acc
          else
            let parts := splitOnChar '=' pair
            let rawKey := parts.headD []
            let rawValue := (parts.drop 1).headD []
            let key := safeDecode (jsTrim rawKey)
            if key.isEmpty then acc
            else setAssoc acc key (safeDecode (plusToSpace rawValue)))
        []

example : getAssoc (parseParams (S "#db=acme&x=1")) (S "db") = some (S "acme") := rfl
example : getAssoc (parseParams (S "?a=1;db=two+words")) (S "db") = some (S "two words") := rfl

/-- Reserved path segments (line 65) excluded from database inference. -/
def RESERVED_PATH_SEGMENTS : List Str := [S "web", S "saas", S "xmlrpc", S "jsonrpc"]

/-- Known hosting-provider host suffixes (line 64). -/
def KNOWN_ODOO_SUFFIXES : List Str := [S "odoo.com", S "odoo.sh", S "odoo.in", S "odoo-online.com"]

/-- JavaScript truthiness of `Option Str` (`undefined` or `""` are falsy). -/
def strOptTruthy : Option Str → Bool
  | some s => !s.isEmpty
  | none => false

/-- The regex `replace(/^#/, "")`: drop one leading `#`. -/
def stripLeadingHash (s : Str) : Str :=
  match s with
  | '#' :: rest => rest
  | s => s

/-- The `params.db?.trim()` lookup used for both the query string and the
fragment (lines 261 and 267). -/
def dbParamOf (params : List (Str × Str)) : Option Str :=
  (getAssoc params (S "db")).map jsTrim

/-- The bare fragment value `parsed.hash.replace(/^#/, "").trim()`
(line 272). -/
def bareHashValue (hash : Str) : Str := jsTrim (stripLeadingHash hash)

/-- The single-bare-path-segment database candidate (lines 277–283). -/
def dbFromPath (path : Str) : Option Str :=
  match (splitOnChar '/' (normalizePath path)).filter (fun s => !s.isEmpty) with
  | [candidate] =>
    if RESERVED_PATH_SEGMENTS.contains (lowerStr candidate) then none
    else some candidate
  | _ => none

/-- The hosting-provider subdomain database candidate (lines 285–294). -/
def dbFromHost (host : Str) : Option Str :=
  let hostSegments := (splitOnChar '.' host).filter (fun s => !s.isEmpty)
  if hostSegments.length ≥ 2 then
    let suffix := joinWithChar '.' (hostSegments.drop (hostSegments.length - 2))
    if KNOWN_ODOO_SUFFIXES.contains suffix || hostSegments.length > 2 then
      match hostSegments with
      | candidate :: _ =>
        if !candidate.isEmpty && !(lowerStr candidate == S "www") then some candidate
        else none
      | [] => none
    else none
  else none

/-- Mirrors `extractDatabaseFromUrl` (lines 254–297): try the `db` query
parameter, the `db` fragment parameter, a bare fragment value, a single
non-reserved path segment, and finally a hosting-provider subdomain.  The
source's intermediate `const`s are inlined into the conditions. -/
def extractDatabaseFromUrl (raw : Str) : Option Str :=
  match parseInputUrl raw with
  | none => none
  | some parsed =>
    if strOptTruthy (dbParamOf (parseParams parsed.query)) then
      dbParamOf (parseParams parsed.query)
    else if strOptTruthy (dbParamOf (parseParams parsed.hash)) then
      dbParamOf (parseParams parsed.hash)
    else if !strOptTruthy (dbParamOf (parseParams parsed.hash))
        && !(bareHashValue parsed.hash).isEmpty
        && !(bareHashValue parsed.hash).contains '='
        && !(bareHashValue parsed.hash).contains '&' then
      some (bareHashValue parsed.hash)
    else
      match dbFromPath parsed.path with
      | some c => some c
      | none => dbFromHost parsed.host

example : extractDatabaseFromUrl (S "my.co/app/?x=1#db=acme") = some (S "acme") := rfl
example : extractDatabaseFromUrl (S "https://happy.odoo.com") = some (S "happy") := rfl
example : extractDatabaseFromUrl (S "https://my.co/web") = none := rfl
example : extractDatabaseFromUrl (S "https://my.co/mydb") = some (S "mydb") := rfl
example : extractDatabaseFromUrl (S "https://www.odoo.com") = none := rfl
example : extractDatabaseFromUrl (S "https://my.co#bare") = some (S "bare") := rfl

/-- JavaScript truthiness of a number (0 and NaN are falsy). -/
def JsNum.truthy (n : JsNum) : Bool := !(n == .fin 0) && !(n == .nan)

/-- The optional `data` object of a JSON-RPC error (lines 3–7). -/
structure JsonRpcErrorData where
  name : Option Str
  debug : Option Str
  message : Option Str
deriving DecidableEq, Repr

/-- A JSON-RPC error object (lines 9–13). -/
structure JsonRpcError where
  code : Int
  message : Str
  data : Option JsonRpcErrorData
deriving DecidableEq, Repr

/-- JavaScript `Array.prototype.filter(Boolean)` over optional strings:
keeps the present, non-empty entries. -/
def filterTruthyParts (parts : List (Option Str)) : List Str :=
  parts.foldr
    (fun p acc =>
      match p with
      | some s => if s.isEmpty then acc else s :: acc
      | none => acc)
    []

/-- JavaScript `Array.prototype.join` with a string separator. -/
def joinWithSep (sep : Str) : List Str → Str
  | [] => []
  | [s] => s
  | s :: t :: rest => s ++ sep ++ joinWithSep sep (t :: rest)

/-- Mirrors `extractErrorMessage` (lines 91–95): join the truthy entries of
`[error.message, error.data?.message, error.data?.debug]` with `" | "`,
falling back to `"Unknown Odoo error"`. -/
def extractErrorMessage (error : Option JsonRpcError) : Str :=
  match error with
  | none => S "Unknown Odoo error"
  | some e =>
    let parts := filterTruthyParts
      [some e.message, e.data.bind (·.message), e.data.bind (·.debug)]
    let joined := joinWithSep (S " | ") parts
    if joined.isEmpty then S "Unknown Odoo error" else joined

/-- The body of a JSON-RPC response (lines 15–20), with `result` and `error`
both optional. -/
structure JsonRpcResponseBody where
  result : Option JsVal
  error : Option JsonRpcError
deriving Repr

/-- One transport interaction: either a served JSON-RPC response body or a
thrown transport error (rejected axios promise). -/
inductive RpcResp where
  | reply (body : JsonRpcResponseBody)
  | netThrow
deriving Repr

/-- A convenient success response. -/
def okResp (v : JsVal) : RpcResp := .reply ⟨some v, none⟩

/-- A convenient server-error response. -/
def errResp (e : JsonRpcError) : RpcResp := .reply ⟨none, some e⟩

/-- A request issued by the client, identified by its service-level payload.
`executeKw` mirrors the envelope at lines 130–139, `dbList` the one at lines
300–309, `authenticate` the one at lines 345–354. -/
inductive OdooCall where
  | executeKw (database : Str) (uid : JsNum) (password : Str) (model : Str)
      (method : Str) (args : List JsVal) (kwargs : List (Str × JsVal))
  | dbList
  | authenticate (db : Str) (login : Str) (password : Str)
deriving Repr

/-- The `params` object of the JSON-RPC envelope. -/
structure RpcParams where
  service : Str
  method : Str
  args : List JsVal
deriving Repr

/-- The wire-level `params` each call kind produces, copied from the three
`httpClient.post` bodies in the source. -/
def OdooCall.wireParams : OdooCall → RpcParams
  | executeKw db uid pw model method args kwargs =>
    ⟨S "object", S "execute_kw",
      [.str db, .num uid, .str pw, .str model, .str method, .arr args, .obj kwargs]⟩
  | dbList => ⟨S "db", S "list", []⟩
  | authenticate db login pw =>
    ⟨S "common", S "authenticate", [.str db, .str login, .str pw, .obj []]⟩

/-- Mirrors `cleanObject` (lines 79–84): drop `undefined`/`null` entries
(`undefined` input yields `{}`). -/
def cleanObject (input : Option (List (Str × JsVal))) : List (Str × JsVal) :=
  match input with
  | none => []
  | some m =>
    m.filter (fun p =>
      match p.2 with
      | JsVal.undef => false
      | .null => false
      | _ => true)

/-- Default request context (line 62). -/
def DEFAULT_CONTEXT : List (Str × JsVal) := [(S "lang", .str (S "en_US"))]

/-- Locale-neutral write context (line 63). -/
def WRITE_CONTEXT : List (Str × JsVal) := [(S "lang", .bool false)]

/-- Field assignment on an object modelled as an association list: replaces
an existing key in place, otherwise appends. -/
def setAssocV (m : List (Str × JsVal)) (k : Str) (v : JsVal) : List (Str × JsVal) :=
  if m.any (fun p => p.1 == k) then m.map (fun p => if p.1 == k then (k, v) else p)
  else m ++ [(k, v)]

/-- Property lookup on an object modelled as an association list. -/
def getAssocV (m : List (Str × JsVal)) (k : Str) : Option JsVal :=
  (m.find? (fun p => p.1 == k)).map (·.2)

/-- Object spread `{...base, ...over}`. -/
def mergeObj (base over : List (Str × JsVal)) : List (Str × JsVal) :=
  over.foldl (fun acc p => setAssocV acc p.1 p.2) base

/-- Mirrors `buildContext` (lines 74–77): `{...DEFAULT_CONTEXT, ...context}`. -/
def buildContext (context : Option (List (Str × JsVal))) : List (Str × JsVal) :=
  mergeObj DEFAULT_CONTEXT (context.getD [])

/-- The options record of `executeKw` (lines 22–27), with the `= []` / `= {}`
destructuring defaults already applied. -/
structure ExecuteKwOptions where
  model : Str
  method : Str
  args : List JsVal
  kwargs : List (Str × JsVal)
deriving Repr

/-- The session slice `executeKwWith` needs (line 68). -/
structure ExecuteKwSession where
  database : Str
  uid : JsNum
  password : Str
deriving DecidableEq, Repr

/-- The response unwrapping of `executeKwWith` (lines 141–149): a
server-reported error is thrown with `extractErrorMessage`, a missing
`result` is thrown as an empty response, and a transport rejection is
modelled as the fixed thrown message `"Network request failed"`. -/
def unwrapRpcResp (resp : RpcResp) : Except Str JsVal :=
  match resp with
  | .netThrow => .error (S "Network request failed")
  | .reply body =>
    match body.error with
    | some e => .error (extractErrorMessage (some e))
    | none =>
      match body.result with
      | none => .error (S "Unexpected empty response from Odoo")
      | some v => .ok v

/-- Mirrors `executeKwWith` (lines 125–150): build the `object`-service
`execute_kw` envelope (lines 130–139), then unwrap the response. -/
def executeKwWith (session : ExecuteKwSession) (opts : ExecuteKwOptions)
    (resp : RpcResp) : OdooCall × Except Str JsVal :=
  (OdooCall.executeKw session.database session.uid session.password
    opts.model opts.method opts.args (cleanObject (some opts.kwargs)),
   unwrapRpcResp resp)

/-- A Domain Filter clause (lines 29–31): a `[field, operator, value]`
condition or a prefix logical operator. -/
inductive DomainClause where
  | cond (field : Str) (op : Str) (value : JsVal)
  | oper (o : Str)
deriving Repr

/-- Wire encoding of a domain clause. -/
def DomainClause.toJs : DomainClause → JsVal
  | cond f o v => .arr [.str f, .str o, v]
  | oper o => .str o

/-- The options record of `executeSearchRead` (lines 33–40). -/
structure SearchReadOptions where
  model : Str
  domain : List DomainClause
  fields : Option (List Str)
  limit : Option JsNum
  order : Option Str
  context : Option (List (Str × JsVal))
deriving Repr

/-- Mirrors `executeSearchRead` (lines 157–171): a `search_read` call whose
kwargs are the cleaned `{fields, limit, order, context}` object. -/
def executeSearchRead (session : ExecuteKwSession) (o : SearchReadOptions)
    (resp : RpcResp) : OdooCall × Except Str JsVal :=
  executeKwWith session
    ⟨o.model, S "search_read", [.arr (o.domain.map DomainClause.toJs)],
      cleanObject (some
        [(S "fields", match o.fields with | some l => .arr (l.map .str) | none => JsVal.undef),
         (S "limit", match o.limit with | some n => .num n | none => JsVal.undef),
         (S "order", match o.order with | some s => .str s | none => JsVal.undef),
         (S "context", .obj (buildContext o.context))])⟩
    resp

/-- Mirrors `discoverDatabase` (lines 298–324): a `db`-service `list` call; the
result is kept only when it is a one-element array holding a string, and both
server errors and transport throws are swallowed to `undefined`. -/
def discoverDatabase (resp : RpcResp) : OdooCall × Option Str :=
  (OdooCall.dbList,
    match resp with
    | .netThrow => none
    | .reply body =>
      match body.error with
      | some _ => none
      | none =>
        match body.result with
        | some (.arr [.str s]) => some s
        | _ => none)

/-- The response unwrapping of `authenticateWithClient` (lines 356–365): the
result must be an integer number, which becomes the uid. -/
def unwrapAuthResp (resp : RpcResp) : Except Str JsNum :=
  match resp with
  | .netThrow => .error (S "Network request failed")
  | .reply body =>
    match body.error with
    | some e => .error (extractErrorMessage (some e))
    | none =>
      match body.result with
      | some (.num n) =>
        if n.integer then .ok n
        else .error (S "Invalid login response from Odoo")
      | _ => .error (S "Invalid login response from Odoo")

/-- Mirrors `authenticateWithClient` (lines 326–366): validate database,
login and password, then call the `common` service's `authenticate` and
unwrap the uid with `unwrapAuthResp`. -/
def authenticateWithClient (database username password : Str) (resp : RpcResp) :
    List OdooCall × Except Str JsNum :=
  let db := jsTrim database
  let login := jsTrim username
  if db.isEmpty then ([], .error (S "Database is required."))
  else if login.isEmpty then ([], .error (S "Username or email is required."))
  else if password.isEmpty then ([], .error (S "Password is required."))
  else ([OdooCall.authenticate db login password], unwrapAuthResp resp)

example : (discoverDatabase (okResp (.arr [.str (S "one")]))).2 = some (S "one") := rfl
example : (discoverDatabase (okResp (.arr [.str (S "a"), .str (S "b")]))).2 = none := rfl
example : (discoverDatabase (okResp (.str (S "a")))).2 = none := rfl
example : (discoverDatabase .netThrow).2 = none := rfl
example : extractErrorMessage (some ⟨200, S "Access Denied", some ⟨none, some (S "trace..."), none⟩⟩)
    = S "Access Denied | trace..." := rfl

/-- The arguments of `signInToOdoo` (lines 368–373). -/
structure SignInParams where
  serverUrl : Str
  username : Str
  password : Str
  database : Option Str
deriving Repr

/-- The user profile (lines 49–55). -/
structure OdooUserProfile where
  id : JsNum
  name : Str
  email : Option Str
  partnerId : Option JsNum
  companyId : Option JsNum
deriving DecidableEq, Repr

/-- The stored session (lines 57–60). -/
structure OdooSession where
  serverUrl : Str
  database : Str
  username : Str
  password : Str
  uid : JsNum
  user : OdooUserProfile
deriving DecidableEq, Repr

/-- Mirrors the database-resolution expression of `signInToOdoo`
(lines 390–392):
`(database && database.trim()) || extractDatabaseFromUrl(serverUrl) ||
(await discoverDatabase(httpClient))`.  Returns the calls issued (the
discovery call appears exactly when both higher-priority sources are falsy),
the resolved value, and the unconsumed responses. -/
def resolveSignInDatabase (database : Option Str) (serverUrl : Str)
    (resps : List RpcResp) : List OdooCall × Option Str × List RpcResp :=
  let explicit : Option Str :=
    match database with
    | none => none
    | some d => if d.isEmpty then some d else some (jsTrim d)
  if strOptTruthy explicit then ([], explicit, resps)
  else
    let fromUrl := extractDatabaseFromUrl serverUrl
    if strOptTruthy fromUrl then ([], fromUrl, resps)
    else
      let (call, discovered) := discoverDatabase (resps.headD .netThrow)
      ([call], discovered, resps.tail)

/-- Property access on a runtime value: object key lookup, `undefined`
otherwise. -/
def JsVal.get (v : JsVal) (k : Str) : JsVal :=
  match v with
  | .obj fields =>
    match fields.find? (fun p => p.1 == k) with
    | some p => p.2
    | none => JsVal.undef
  | _ => JsVal.undef

/-- JavaScript `Number.isInteger(x) ? Number(x) : undefined` on a runtime
value. -/
def jsIntOf : JsVal → Option JsNum
  | .num (.fin q) => if q.den == 1 then some (.fin q) else none
  | _ => none

/-- Mirrors the profile construction of `signInToOdoo` (lines 418–440):
`rawUser` is the first element of the returned record array (else `{}`);
`name` falls back to the submitted login when the remote `name` is not a
non-blank string; `email` falls back to the remote `login` field when the
remote `email` is not a non-blank string; `partnerId`/`companyId` are the
heads of the remote many2one pairs when integers. -/
def buildUserProfile (uid : JsNum) (login : Str) (userRecords : JsVal) :
    OdooUserProfile :=
  let rawUser : JsVal :=
    match userRecords with
    | .arr (r :: _) => r
    | _ => .obj []
  let partnerIdRaw : JsVal :=
    match rawUser.get (S "partner_id") with
    | .arr (x :: _) => x
    | _ => JsVal.undef
  let companyIdRaw : JsVal :=
    match rawUser.get (S "company_id") with
    | .arr (x :: _) => x
    | _ => JsVal.undef
  let nameVal : Str :=
    match rawUser.get (S "name") with
    | .str s => if (jsTrim s).isEmpty then login else jsTrim s
    | _ => login
  let emailFallback : Option Str :=
    match rawUser.get (S "login") with
    | .str t => some (jsTrim t)
    | _ => none
  let emailVal : Option Str :=
    match rawUser.get (S "email") with
    | .str s => if (jsTrim s).isEmpty then emailFallback else some (jsTrim s)
    | _ => emailFallback
  ⟨uid, nameVal, emailVal, jsIntOf partnerIdRaw, jsIntOf companyIdRaw⟩

/-- The profile fields requested from `res.users` (line 412). -/
def USER_PROFILE_FIELDS : List Str :=
  [S "name", S "email", S "login", S "partner_id", S "company_id"]

/-- The tail of `signInToOdoo` after URL normalization and database
resolution (lines 394–455): require a truthy resolved database, authenticate
against it, read the user's profile from `res.users`, and build the
session. -/
def signInAfterResolve (normalizedServerUrl login password : Str)
    (resolved : Option Str) (trace0 : List OdooCall) (resps1 : List RpcResp) :
    List OdooCall × Except Str OdooSession :=
  if !strOptTruthy resolved then
    (trace0, .error (S "Could not determine the Odoo database. Please provide it in the advanced settings."))
  else
    match authenticateWithClient (resolved.getD []) login password (resps1.headD .netThrow) with
    | (trace1, authRes) =>
      match authRes with
      | .error e => (trace0 ++ trace1, .error e)
      | .ok uid =>
        match executeKwWith ⟨resolved.getD [], uid, password⟩
          ⟨S "res.users", S "read", [.arr [.num uid]],
            [(S "fields", .arr (USER_PROFILE_FIELDS.map .str)),
             (S "context", .obj (buildContext none))]⟩
          (resps1.tail.headD .netThrow) with
        | (call2, readRes) =>
          match readRes with
          | .error e => (trace0 ++ trace1 ++ [call2], .error e)
          | .ok userRecords =>
            (trace0 ++ trace1 ++ [call2],
              .ok ⟨normalizedServerUrl, resolved.getD [], login, password, uid,
                buildUserProfile uid login userRecords⟩)

/-- Mirrors `signInToOdoo` (lines 380–455): normalize the server URL, resolve
the database (explicit argument, then the pre-normalization URL, then
single-database discovery) and run `signInAfterResolve`.  The returned
session is the stored `activeSession`; the source's `SignInResult` pairs it
with `session.user`. -/
def signInToOdoo (p : SignInParams) (resps : List RpcResp) :
    List OdooCall × Except Str OdooSession :=
  match normalizeServerUrl p.serverUrl with
  | .error e => ([], .error e)
  | .ok normalizedServerUrl =>
    match resolveSignInDatabase p.database p.serverUrl resps with
    | (trace0, resolved, resps1) =>
      signInAfterResolve normalizedServerUrl (jsTrim p.username) p.password
        resolved trace0 resps1

example :
    (signInToOdoo ⟨S "https://my.co#db=acme", S " me ", S "pw", none⟩
      [okResp (.num (.fin 7)),
       okResp (.arr [.obj [(S "name", .str (S "Mo")), (S "email", .str (S "mo@x")),
         (S "login", .str (S "me")), (S "partner_id", .arr [.num (.fin 3), .str (S "Mo")]),
         (S "company_id", .arr [.num (.fin 1), .str (S "C")])]])]).2
    = .ok ⟨S "https://my.co", S "acme", S "me", S "pw", .fin 7,
        ⟨.fin 7, S "Mo", some (S "mo@x"), some (.fin 3), some (.fin 1)⟩⟩ := rfl

/-- The product model name (line 502). -/
def PRODUCT_MODEL : Str := S "product.template"

/-- The product fields requested by product queries (lines 503–514). -/
def PRODUCT_FIELDS : List Str :=
  [S "name", S "list_price", S "currency_id", S "description_sale",
   S "image_1920", S "image_512", S "image_256", S "sale_ok", S "active",
   S "default_code"]

/-- The options of `fetchProductTemplates` (lines 516–522); a missing field is
an absent property, to which the source's destructuring defaults apply. -/
structure FetchProductTemplatesOptions where
  limit : Option JsNum
  search : Option Str
  categoryId : Option JsNum
  includeInactive : Option Bool
  order : Option Str
deriving Repr

/-- The empty options object (the `= {}` default argument). -/
def noFetchOptions : FetchProductTemplatesOptions := ⟨none, none, none, none, none⟩

/-- Mirrors the query construction of `fetchProductTemplates` (lines 527–560):
destructuring defaults `includeInactive = false` and `order = "write_date
desc"`, limit defaulting to 40, and the domain built from `sale_ok`,
`active`, `categ_id` and the optional search OR-clause. -/
def fetchProductTemplatesQuery (o : FetchProductTemplatesOptions) :
    SearchReadOptions :=
  let includeInactive := o.includeInactive.getD false
  let order := o.order.getD (S "write_date desc")
  let effectiveLimit := match o.limit with | some n => n | none => .fin 40
  let domain0 : List DomainClause := [.cond (S "sale_ok") (S "=") (.bool true)]
  let domain1 :=
    if !includeInactive then domain0 ++ [.cond (S "active") (S "=") (.bool true)]
    else domain0
  let domain2 :=
    match o.categoryId with
    | some n => domain1 ++ [.cond (S "categ_id") (S "child_of") (.num n)]
    | none => domain1
  let domain3 :=
    match o.search with
    | some s =>
      if !s.isEmpty && !(jsTrim s).isEmpty then
        domain2 ++ [.oper (S "|"),
          .cond (S "name") (S "ilike") (.str (jsTrim s)),
          .cond (S "default_code") (S "ilike") (.str (jsTrim s))]
      else domain2
    | none => domain2
  ⟨PRODUCT_MODEL, domain3, some PRODUCT_FIELDS, some effectiveLimit, some order, none⟩

/-- Mirrors `fetchProductTemplates` (lines 524–563): run the constructed
`search_read` and return the records, or `[]` when the result is not an
array. -/
def fetchProductTemplates (o : FetchProductTemplatesOptions)
    (session : ExecuteKwSession) (resp : RpcResp) :
    OdooCall × Except Str (List JsVal) :=
  let (call, res) := executeSearchRead session (fetchProductTemplatesQuery o) resp
  (call, res.map (fun v => match v with | .arr l => l | _ => []))

/-- A TypeScript `string | false` value. -/
inductive StrOrFalse where
  | str (v : Str)
  | fls
deriving DecidableEq, Repr

/-- The update payload accepted by `updateProductTemplate` (lines 565–574). -/
structure UpdateProductTemplateInput where
  name : Option Str
  list_price : Option JsNum
  description_sale : Option StrOrFalse
  sale_ok : Option Bool
  active : Option Bool
  default_code : Option StrOrFalse
  image_1920 : Option StrOrFalse
deriving Repr

/-- The empty update object `{}`. -/
def emptyUpdate : UpdateProductTemplateInput :=
  ⟨none, none, none, none, none, none, none⟩

/-- The `name` block of `sanitizeProductUpdate` (lines 579–585). -/
def sanitizeNamePart : Option Str → Except Str (List (Str × JsVal))
  | none => .ok []
  | some n =>
    let trimmed := jsTrim n
    if trimmed.isEmpty then .error (S "Product name cannot be empty")
    else .ok [(S "name", .str trimmed)]

/-- The `list_price` block of `sanitizeProductUpdate` (lines 587–593);
`Number(...)` is the identity on numbers. -/
def sanitizePricePart : Option JsNum → Except Str (List (Str × JsVal))
  | none => .ok []
  | some n =>
    if !n.finite || n.negative then .error (S "Price must be a non-negative number")
    else .ok [(S "list_price", .num n)]

/-- The `description_sale` block (lines 595–602): blank strings collapse to
`false`. -/
def sanitizeDescriptionPart : Option StrOrFalse → List (Str × JsVal)
  | none => []
  | some (.str s) =>
    let trimmed := jsTrim s
    [(S "description_sale", if trimmed.isEmpty then .bool false else .str trimmed)]
  | some .fls => [(S "description_sale", .bool false)]

/-- The `default_code` block (lines 604–611). -/
def sanitizeCodePart : Option StrOrFalse → List (Str × JsVal)
  | none => []
  | some (.str s) =>
    let trimmed := jsTrim s
    [(S "default_code", if trimmed.isEmpty then .bool false else .str trimmed)]
  | some .fls => [(S "default_code", .bool false)]

/-- The `image_1920` block (lines 613–620). -/
def sanitizeImagePart : Option StrOrFalse → List (Str × JsVal)
  | none => []
  | some (.str s) =>
    let trimmed := jsTrim s
    [(S "image_1920", if !trimmed.isEmpty then .str trimmed else .bool false)]
  | some .fls => [(S "image_1920", .bool false)]

/-- A present boolean field (lines 622–628). -/
def sanitizeBoolPart (key : Str) : Option Bool → List (Str × JsVal)
  | none => []
  | some b => [(key, .bool b)]

/-- Mirrors `sanitizeProductUpdate` (lines 576–631): the payload keys are
assigned in source order, and the name/price blocks throw on invalid input. -/
def sanitizeProductUpdate (input : UpdateProductTemplateInput) :
    Except Str (List (Str × JsVal)) :=
  match sanitizeNamePart input.name with
  | .error e => .error e
  | .ok nameP =>
    match sanitizePricePart input.list_price with
    | .error e => .error e
    | .ok priceP =>
      .ok (nameP ++ priceP
        ++ sanitizeDescriptionPart input.description_sale
        ++ sanitizeCodePart input.default_code
        ++ sanitizeImagePart input.image_1920
        ++ sanitizeBoolPart (S "sale_ok") input.sale_ok
        ++ sanitizeBoolPart (S "active") input.active)

/-- Mirrors `updateProductTemplate` (lines 655–712): validate the id, sanitize
the payload, return `false` for an empty payload without issuing any call,
otherwise issue the `write`; when the write reports a truthy result and the
payload touched `name`, best-effort re-propagate the name to the base record
and the variants (their failures are logged and swallowed), and return
`true`. -/
def updateProductTemplate (id : JsNum) (values : UpdateProductTemplateInput)
    (session : ExecuteKwSession) (resps : List RpcResp) :
    List OdooCall × Except Str Bool :=
  if !id.integer then ([], .error (S "Invalid product id"))
  else
    match sanitizeProductUpdate values with
    | .error e => ([], .error e)
    | .ok payload =>
      if payload.isEmpty then ([], .ok false)
      else
        let (c1, r1) := executeKwWith session
          ⟨PRODUCT_MODEL, S "write", [.arr [.num id], .obj payload],
            [(S "context", .obj (buildContext none))]⟩
          (resps.headD .netThrow)
        match r1 with
        | .error e => ([c1], .error e)
        | .ok v =>
          if !v.truthy then ([c1], .ok false)
          else
            match getAssocV payload (S "name") with
            | none => ([c1], .ok true)
            | some nameVal =>
              let (c2, _r2) := executeKwWith session
                ⟨PRODUCT_MODEL, S "write",
                  [.arr [.num id], .obj [(S "name", nameVal)]],
                  [(S "context", .obj (buildContext (some WRITE_CONTEXT)))]⟩
                (resps.tail.headD .netThrow)
              let (c3, r3) := executeKwWith session
                ⟨S "product.product", S "search",
                  [.arr [.arr [.str (S "product_tmpl_id"), .str (S "="), .num id]]],
                  []⟩
                (resps.tail.tail.headD .netThrow)
              match r3 with
              | .ok (.arr (v0 :: vs)) =>
                let (c4, _r4) := executeKwWith session
                  ⟨S "product.product", S "write",
                    [.arr (v0 :: vs), .obj [(S "name", nameVal)]],
                    [(S "context", .obj (buildContext (some WRITE_CONTEXT)))]⟩
                  (resps.tail.tail.tail.headD .netThrow)
                ([c1, c2, c3, c4], .ok true)
              | _ => ([c1, c2, c3], .ok true)

/-- JavaScript `Array.from(new Set(...))`: deduplicate keeping first
occurrences (Set equality is SameValueZero, which `DecidableEq JsNum`
matches). -/
def dedupKeepFirst (seen : List JsNum) : List JsNum → List JsNum
  | [] => []
  | a :: rest =>
    if seen.contains a then dedupKeepFirst seen rest
    else a :: dedupKeepFirst (a :: seen) rest

/-- The id normalization of `deleteProductTemplates` (lines 715–718): wrap a
single id, map `Number` (the identity on numbers), deduplicate, keep the
positive integers. -/
def normalizeDeleteIds (ids : JsNum ⊕ List JsNum) : List JsNum :=
  let idList := match ids with | .inl n => [n] | .inr l => l
  (dedupKeepFirst [] idList).filter (fun v => v.integer && v.positive)

/-- Mirrors `deleteProductTemplates` (lines 714–732): normalize the ids, fail
when none remain, else `unlink` and report the coerced boolean result. -/
def deleteProductTemplates (ids : JsNum ⊕ List JsNum)
    (session : ExecuteKwSession) (resps : List RpcResp) :
    List OdooCall × Except Str Bool :=
  let uniqueIds := normalizeDeleteIds ids
  if uniqueIds.isEmpty then ([], .error (S "Invalid product id"))
  else
    let (c, r) := executeKwWith session
      ⟨PRODUCT_MODEL, S "unlink", [.arr (uniqueIds.map JsVal.num)],
        [(S "context", .obj (buildContext (some WRITE_CONTEXT)))]⟩
      (resps.headD .netThrow)
    ([c], r.map JsVal.truthy)

example :
    (deleteProductTemplates (.inr [.fin 5, .fin 5, .fin 7]) ⟨S "db", .fin 2, S "pw"⟩
      [okResp (.bool true)]).1
    = [.executeKw (S "db") (.fin 2) (S "pw") PRODUCT_MODEL (S "unlink")
        [.arr [.num (.fin 5), .num (.fin 7)]]
        [(S "context", .obj [(S "lang", .bool false)])]] := rfl
example :
    deleteProductTemplates (.inr []) ⟨S "db", .fin 2, S "pw"⟩ []
    = ([], .error (S "Invalid product id")) := rfl
example :
    deleteProductTemplates (.inr [.fin (-1), .fin 0]) ⟨S "db", .fin 2, S "pw"⟩ []
    = ([], .error (S "Invalid product id")) := rfl
example :
    updateProductTemplate (.fin 3) emptyUpdate ⟨S "db", .fin 2, S "pw"⟩ []
    = ([], .ok false) := rfl
example :
    updateProductTemplate (.fin 3) ⟨none, some (.fin (-1)), none, none, none, none, none⟩
      ⟨S "db", .fin 2, S "pw"⟩ []
    = ([], .error (S "Price must be a non-negative number")) := rfl
example :
    updateProductTemplate (.fin 3) ⟨some (S "  "), none, none, none, none, none, none⟩
      ⟨S "db", .fin 2, S "pw"⟩ []
    = ([], .error (S "Product name cannot be empty")) := rfl

/-- The module-level mutable state of the multi-tenant client (lines 70–71):
the active session and the lazily built axios client, the latter modelled by
the base URL it was bound to. -/
structure ClientModuleState where
  activeSession : Option OdooSession
  clientBound : Option Str
deriving Repr

/-- Mirrors `executeKw` = `ensureClientAndSession` + `executeKwWith`
(lines 108–155) of the multi-tenant client: fail when no session is active,
lazily bind the client to the session's server URL, then run the call.  The
session field of the state is never written. -/
def executeKwGlobal (st : ClientModuleState) (opts : ExecuteKwOptions)
    (resp : RpcResp) :
    ClientModuleState × List OdooCall × Except Str JsVal :=
  match st.activeSession with
  | none => (st, [], .error (S "Not authenticated with Odoo. Please sign in again."))
  | some session =>
    let st1 : ClientModuleState :=
      match st.clientBound with
      | some _ => st
      | none => ⟨st.activeSession, some session.serverUrl⟩
    let (call, res) := executeKwWith ⟨session.database, session.uid, session.password⟩ opts resp
    (st1, [call], res)

/-- Mirrors `signOutFromOdoo` (lines 457–460). -/
def signOutFromOdoo (_st : ClientModuleState) : ClientModuleState := ⟨none, none⟩

/-- The fixed credentials of the legacy single-account client
(`app/(tabs)/search.tsx`, lines 396–398). -/
def LEGACY_DB : Str := S "happycolours"

/-- The fixed login of the legacy client. -/
def LEGACY_LOGIN : Str := S "happycolours@uniflame.org"

/-- The fixed API key of the legacy client. -/
def LEGACY_API_KEY : Str := S "0e4bba0a6bc0c7ec21f6d9752885137d76dec53a"

/-- The legacy client's module state: the cached authentication uid
(`cachedUid`, search.tsx line 447). -/
abbrev LegacyState := Option JsNum

/-- Mirrors the legacy `authenticate` (search.tsx lines 470–496): return the
cached uid when truthy, otherwise call `common.authenticate` with the fixed
credentials; any number result is accepted and cached. -/
def legacyAuthenticate (st : LegacyState) (resp : RpcResp) :
    LegacyState × List OdooCall × Except Str JsNum :=
  if (match st with | some u => u.truthy | none => false) then
    (st, [], .ok (st.getD .nan))
  else
    let outcome : LegacyState × Except Str JsNum :=
      match resp with
      | .netThrow => (st, .error (S "Network request failed"))
      | .reply body =>
        match body.error with
        | some e => (st, .error (extractErrorMessage (some e)))
        | none =>
          match body.result with
          | some (.num n) => (some n, .ok n)
          | _ => (st, .error (S "Failed to authenticate with Odoo"))
    (outcome.1, [OdooCall.authenticate LEGACY_DB LEGACY_LOGIN LEGACY_API_KEY], outcome.2)

/-- Mirrors the legacy `executeKw` (search.tsx lines 506–532): authenticate
(from cache when possible), issue the `object.execute_kw` call, and on a
server-reported error set `cachedUid = null` before throwing. -/
def legacyExecuteKw (st : LegacyState) (opts : ExecuteKwOptions)
    (resps : List RpcResp) :
    LegacyState × List OdooCall × Except Str JsVal :=
  let (st1, trace1, authRes) := legacyAuthenticate st (resps.headD .netThrow)
  match authRes with
  | .error e => (st1, trace1, .error e)
  | .ok uid =>
    let resps1 := if trace1.isEmpty then resps else resps.tail
    let call := OdooCall.executeKw LEGACY_DB uid LEGACY_API_KEY
      opts.model opts.method opts.args (cleanObject (some opts.kwargs))
    let outcome : LegacyState × Except Str JsVal :=
      match resps1.headD .netThrow with
      | .netThrow => (st1, .error (S "Network request failed"))
      | .reply body =>
        match body.error with
        | some e => (none, .error (extractErrorMessage (some e)))
        | none =>
          match body.result with
          | none => (st1, .error (S "Unexpected empty response from Odoo"))
          | some v => (st1, .ok v)
    (outcome.1, trace1 ++ [call], outcome.2)

example :
    (legacyExecuteKw (some (.fin 9)) ⟨S "m", S "read", [], []⟩
      [errResp ⟨200, S "boom", none⟩]).1 = none := rfl
example :
    (legacyExecuteKw (some (.fin 9)) ⟨S "m", S "read", [], []⟩
      [okResp (.bool true)]).1 = some (.fin 9) := rfl

/-- An infix-substring relation on the character-list model of strings. -/
def infixStr (needle hay : Str) : Prop := ∃ pre post, hay = pre ++ needle ++ post

/-- Detects two consecutive slashes anywhere in a string. -/
def hasDoubleSlash : Str → Bool
  | [] => false
  | [_] => false
  | a :: b :: rest => (a == '/' && b == '/') || hasDoubleSlash (b :: rest)

/-!
Theorems.  Each claim `Cn` of the specification review is settled by the
theorem named `Cn_...`; shared helper lemmas precede them.
-/

/-- Everything `dedupKeepFirst` emits avoids the `seen` accumulator. -/
theorem dedupKeepFirst_not_mem_seen (l : List JsNum) :
    ∀ (seen : List JsNum), ∀ a ∈ dedupKeepFirst seen l, a ∉ seen := by
  induction l with
  | nil => simp [dedupKeepFirst]
  | cons b t ih =>
    intro seen a ha
    by_cases hb : b ∈ seen
    · exact ih seen a (by simpa [dedupKeepFirst, hb] using ha)
    · simp only [dedupKeepFirst] at ha
      rw [if_neg (by simpa using hb)] at ha
      rcases List.mem_cons.mp ha with rfl | ha
      · exact hb
      · intro hmem
        exact ih (b :: seen) a ha (by simp [hmem])

/-- `dedupKeepFirst` produces a duplicate-free list. -/
theorem dedupKeepFirst_nodup (l : List JsNum) :
    ∀ (seen : List JsNum), (dedupKeepFirst seen l).Nodup := by
  induction l with
  | nil => simp [dedupKeepFirst]
  | cons b t ih =>
    intro seen
    by_cases hb : b ∈ seen
    · simpa [dedupKeepFirst, hb] using ih seen
    · simp only [dedupKeepFirst]
      rw [if_neg (by simpa using hb)]
      exact List.nodup_cons.mpr
        ⟨fun hmem => dedupKeepFirst_not_mem_seen t (b :: seen) b hmem (by simp),
          ih (b :: seen)⟩

/-- C10: an update whose supplied fields all sanitize away (for example the
empty object `{}`) makes `updateProductTemplate` return `false` while issuing
no remote call at all, so a `false` return does not imply a remote
rejection. -/
theorem C10_update_vacuous_false :
    (∀ values, sanitizeProductUpdate values = .ok [] →
      ∀ id session resps, id.integer = true →
        updateProductTemplate id values session resps = ([], .ok false))
  ∧ sanitizeProductUpdate emptyUpdate = .ok []
  ∧ (∀ session resps,
      updateProductTemplate (.fin 7) emptyUpdate session resps = ([], .ok false)) := by
  refine ⟨?_, rfl, ?_⟩
  · intro values hsan id session resps hid
    unfold updateProductTemplate
    simp [hid, hsan]
  · intro session resps
    rfl

/-- C10 witness: a concrete run of the empty update. -/
theorem C10_update_vacuous_false_witness :
    updateProductTemplate (.fin 3) emptyUpdate ⟨S "db", .fin 2, S "pw"⟩
      [okResp (.bool true)] = ([], .ok false) :=
  C10_update_vacuous_false.1 emptyUpdate rfl (.fin 3) ⟨S "db", .fin 2, S "pw"⟩
    [okResp (.bool true)] (by decide)

/-- C5: `deleteProductTemplates` fails with the `InvalidArgument`-class
message and no remote call on `[]` and on `[-1, 0]`, dispatches exactly the
deduplicated id list `[5, 7]` for `[5, 5, 7]`, and in general every call it
dispatches is a single `unlink` whose argument list is duplicate-free and
holds only positive integers. -/
theorem C5_deleteProducts_normalizes :
    (∀ session resps,
      deleteProductTemplates (.inr []) session resps
        = ([], .error (S "Invalid product id")))
  ∧ (∀ session resps,
      deleteProductTemplates (.inr [.fin (-1), .fin 0]) session resps
        = ([], .error (S "Invalid product id")))
  ∧ (∀ session resps,
      (deleteProductTemplates (.inr [.fin 5, .fin 5, .fin 7]) session resps).1
        = [.executeKw session.database session.uid session.password PRODUCT_MODEL
            (S "unlink") [.arr [.num (.fin 5), .num (.fin 7)]]
            [(S "context", .obj [(S "lang", .bool false)])]])
  ∧ (∀ ids session resps, ∀ c ∈ (deleteProductTemplates ids session resps).1,
      c = .executeKw session.database session.uid session.password PRODUCT_MODEL
            (S "unlink") [.arr ((normalizeDeleteIds ids).map JsVal.num)]
            [(S "context", .obj (buildContext (some WRITE_CONTEXT)))]
        ∧ (normalizeDeleteIds ids).Nodup
        ∧ ∀ n ∈ normalizeDeleteIds ids, (n.integer && n.positive) = true) := by
  refine ⟨fun session resps => rfl, fun session resps => rfl,
    fun session resps => rfl, ?_⟩
  intro ids session resps c hc
  unfold deleteProductTemplates at hc
  by_cases he : (normalizeDeleteIds ids).isEmpty
  · rw [if_pos he] at hc
    simp at hc
  · rw [if_neg he] at hc
    simp only [executeKwWith, List.mem_singleton] at hc
    refine ⟨hc, ?_, ?_⟩
    · unfold normalizeDeleteIds
      exact List.Nodup.filter _ (dedupKeepFirst_nodup _ [])
    · intro n hn
      unfold normalizeDeleteIds at hn
      exact (List.mem_filter.mp hn).2

/-- C5 witness: concrete runs for the concrete inputs of the claim. -/
theorem C5_deleteProducts_normalizes_witness :
    deleteProductTemplates (.inr []) ⟨S "db", .fin 2, S "pw"⟩ []
        = ([], .error (S "Invalid product id"))
    ∧ (deleteProductTemplates (.inr [.fin 5, .fin 5, .fin 7]) ⟨S "db", .fin 2, S "pw"⟩
        [okResp (.bool true)]).1
        = [.executeKw (S "db") (.fin 2) (S "pw") PRODUCT_MODEL
            (S "unlink") [.arr [.num (.fin 5), .num (.fin 7)]]
            [(S "context", .obj [(S "lang", .bool false)])]] :=
  ⟨C5_deleteProducts_normalizes.1 ⟨S "db", .fin 2, S "pw"⟩ [],
   C5_deleteProducts_normalizes.2.2.1 ⟨S "db", .fin 2, S "pw"⟩ [okResp (.bool true)]⟩

/-- Helper: the only error `sanitizeNamePart` raises is the blank-name
message. -/
theorem sanitizeNamePart_error (o : Option Str) (e : Str)
    (h : sanitizeNamePart o = .error e) : e = S "Product name cannot be empty" := by
  cases o with
  | none => simp [sanitizeNamePart] at h
  | some s =>
    by_cases hb : (jsTrim s).isEmpty <;> simp [sanitizeNamePart, hb] at h
    exact h.symm

/-- C4: an update carrying a negative or non-finite `list_price` or a name
that is blank after trimming fails with one of the `InvalidArgument`-class
validation messages and issues no remote call (and, the embedding of this
operation being state-free, touches no session state). -/
theorem C4_update_validates_before_network :
    ∀ id values session resps,
      ((∃ n, values.list_price = some n ∧ (!n.finite || n.negative) = true)
        ∨ (∃ s, values.name = some s ∧ (jsTrim s).isEmpty = true)) →
      ∃ e, updateProductTemplate id values session resps = ([], .error e)
        ∧ (e = S "Invalid product id" ∨ e = S "Product name cannot be empty"
            ∨ e = S "Price must be a non-negative number") := by
  intro id values session resps h
  by_cases hid : id.integer
  · have hsan : ∃ e, sanitizeProductUpdate values = .error e
        ∧ (e = S "Product name cannot be empty"
            ∨ e = S "Price must be a non-negative number") := by
      rcases h with ⟨n, hn, hbad⟩ | ⟨s, hs, hblank⟩
      · cases hname : sanitizeNamePart values.name with
        | error e =>
          exact ⟨e, by simp [sanitizeProductUpdate, hname],
            Or.inl (sanitizeNamePart_error _ _ hname)⟩
        | ok l =>
          refine ⟨S "Price must be a non-negative number", ?_, Or.inr rfl⟩
          have hp : sanitizePricePart values.list_price
              = .error (S "Price must be a non-negative number") := by
            rw [hn]; simp [sanitizePricePart, hbad]
          simp [sanitizeProductUpdate, hname, hp]
      · refine ⟨S "Product name cannot be empty", ?_, Or.inl rfl⟩
        have hname : sanitizeNamePart values.name
            = .error (S "Product name cannot be empty") := by
          rw [hs]; simp [sanitizeNamePart, hblank]
        simp [sanitizeProductUpdate, hname]
    rcases hsan with ⟨e, he, hcase⟩
    refine ⟨e, ?_, Or.inr hcase⟩
    unfold updateProductTemplate
    simp [hid, he]
  · refine ⟨S "Invalid product id", ?_, Or.inl rfl⟩
    unfold updateProductTemplate
    simp [hid]

/-- C4 witness: concrete applications for a negative price and a blank
name. -/
theorem C4_update_validates_before_network_witness :
    (∃ e, updateProductTemplate (.fin 3)
        ⟨none, some (.fin (-1)), none, none, none, none, none⟩
        ⟨S "db", .fin 2, S "pw"⟩ [okResp (.bool true)] = ([], .error e)
      ∧ (e = S "Invalid product id" ∨ e = S "Product name cannot be empty"
          ∨ e = S "Price must be a non-negative number"))
    ∧ (∃ e, updateProductTemplate (.fin 3)
        ⟨some (S "  "), none, none, none, none, none, none⟩
        ⟨S "db", .fin 2, S "pw"⟩ [okResp (.bool true)] = ([], .error e)
      ∧ (e = S "Invalid product id" ∨ e = S "Product name cannot be empty"
          ∨ e = S "Price must be a non-negative number")) :=
  ⟨C4_update_validates_before_network (.fin 3)
      ⟨none, some (.fin (-1)), none, none, none, none, none⟩
      ⟨S "db", .fin 2, S "pw"⟩ [okResp (.bool true)]
      (Or.inl ⟨.fin (-1), rfl, by decide⟩),
   C4_update_validates_before_network (.fin 3)
      ⟨some (S "  "), none, none, none, none, none, none⟩
      ⟨S "db", .fin 2, S "pw"⟩ [okResp (.bool true)]
      (Or.inr ⟨S "  ", rfl, by decide⟩)⟩

/-- C7: the no-argument `fetchProducts` query requires `sale_ok = true` and
`active = true`, uses limit 40 and order `"write_date desc"`; its wire call
carries exactly those kwargs; and a search string that is blank after
trimming produces the same query as no search at all. -/
theorem C7_fetchProducts_defaults :
    (fetchProductTemplatesQuery noFetchOptions).domain
        = [.cond (S "sale_ok") (S "=") (.bool true),
           .cond (S "active") (S "=") (.bool true)]
  ∧ (fetchProductTemplatesQuery noFetchOptions).limit = some (.fin 40)
  ∧ (fetchProductTemplatesQuery noFetchOptions).order = some (S "write_date desc")
  ∧ (∀ session resp,
      (fetchProductTemplates noFetchOptions session resp).1
        = .executeKw session.database session.uid session.password PRODUCT_MODEL
            (S "search_read")
            [.arr [.arr [.str (S "sale_ok"), .str (S "="), .bool true],
                   .arr [.str (S "active"), .str (S "="), .bool true]]]
            [(S "fields", .arr (PRODUCT_FIELDS.map .str)),
             (S "limit", .num (.fin 40)),
             (S "order", .str (S "write_date desc")),
             (S "context", .obj [(S "lang", .str (S "en_US"))])])
  ∧ (∀ o s, o.search = some s → (jsTrim s).isEmpty = true →
      fetchProductTemplatesQuery o
        = fetchProductTemplatesQuery ⟨o.limit, none, o.categoryId, o.includeInactive, o.order⟩) := by
  refine ⟨rfl, rfl, rfl, fun session resp => rfl, ?_⟩
  intro o s hs h
  simp [fetchProductTemplatesQuery, hs, h]

/-- C7 witness: concrete applications; the blank-search conjunct applied to a
two-space search string. -/
theorem C7_fetchProducts_defaults_witness :
    (fetchProductTemplates noFetchOptions ⟨S "db", .fin 2, S "pw"⟩ (okResp (.arr []))).1
        = .executeKw (S "db") (.fin 2) (S "pw") PRODUCT_MODEL
            (S "search_read")
            [.arr [.arr [.str (S "sale_ok"), .str (S "="), .bool true],
                   .arr [.str (S "active"), .str (S "="), .bool true]]]
            [(S "fields", .arr (PRODUCT_FIELDS.map .str)),
             (S "limit", .num (.fin 40)),
             (S "order", .str (S "write_date desc")),
             (S "context", .obj [(S "lang", .str (S "en_US"))])]
    ∧ fetchProductTemplatesQuery ⟨none, some (S "  "), none, none, none⟩
        = fetchProductTemplatesQuery ⟨none, none, none, none, none⟩ :=
  ⟨C7_fetchProducts_defaults.2.2.2.1 ⟨S "db", .fin 2, S "pw"⟩ (okResp (.arr [])),
   C7_fetchProducts_defaults.2.2.2.2 ⟨none, some (S "  "), none, none, none⟩
     (S "  ") rfl (by decide)⟩

/-- C2 counterexample: the discovery request's wire service is `db`, not
`common` as the claim states. -/
theorem C2_counterexample_service_is_db :
    ((discoverDatabase (okResp (.arr [.str (S "one")]))).1).wireParams.service = S "db"
    ∧ ((discoverDatabase (okResp (.arr [.str (S "one")]))).1).wireParams.service
        ≠ S "common" :=
  ⟨rfl, by decide⟩

/-- C2 amended: discovery always issues the `db` service's `list` request
with no arguments, and its result is kept exactly when the response carries
no error and a one-element array holding a single string database name. -/
theorem C2_discovery_db_list_single :
    (∀ resp, (discoverDatabase resp).1 = OdooCall.dbList)
  ∧ OdooCall.dbList.wireParams.service = S "db"
  ∧ OdooCall.dbList.wireParams.method = S "list"
  ∧ OdooCall.dbList.wireParams.args = []
  ∧ (∀ resp s, (discoverDatabase resp).2 = some s ↔
      ∃ result, resp = .reply ⟨result, none⟩ ∧ result = some (.arr [.str s])) := by
  refine ⟨fun resp => rfl, rfl, rfl, rfl, ?_⟩
  intro resp s
  constructor
  · intro h
    cases resp with
    | netThrow => simp [discoverDatabase] at h
    | reply body =>
      cases body with
      | mk result error =>
        cases error with
        | some e => simp [discoverDatabase] at h
        | none =>
          refine ⟨result, rfl, ?_⟩
          simp only [discoverDatabase] at h
          rcases result with _ | v
          · cases h
          · cases v with
            | arr elems =>
              cases elems with
              | nil => cases h
              | cons e rest =>
                cases e with
                | str t =>
                  cases rest with
                  | nil => cases h; rfl
                  | cons e2 r2 => cases h
                | undef => cases h
                | null => cases h
                | bool b => cases h
                | num n => cases h
                | arr l2 => cases h
                | obj f2 => cases h
            | undef => cases h
            | null => cases h
            | bool b => cases h
            | num n => cases h
            | str t => cases h
            | obj fields => cases h
  · rintro ⟨result, rfl, rfl⟩
    rfl

/-- C2 witness: concrete applications of the amended discovery behavior. -/
theorem C2_discovery_db_list_single_witness :
    (discoverDatabase (okResp (.arr [.str (S "one")]))).2 = some (S "one")
    ∧ (discoverDatabase (okResp (.arr [.str (S "a"), .str (S "b")]))).2 ≠ some (S "a") := by
  constructor
  · exact (C2_discovery_db_list_single.2.2.2.2 (okResp (.arr [.str (S "one")]))
      (S "one")).mpr ⟨some (.arr [.str (S "one")]), rfl, rfl⟩
  · intro h
    rcases (C2_discovery_db_list_single.2.2.2.2 _ _).mp h with ⟨result, heq, hres⟩
    cases heq
    simp at hres

/-- C9: the multi-tenant client's `executeKw` never writes the active
session (in particular a `RemoteError` does not sign the user out), whereas
the legacy fixed-account client clears its cached uid on any server-reported
error of an `object` call, and with no cached uid its next call starts by
re-authenticating. -/
theorem C9_error_session_handling :
    (∀ st opts resp, (executeKwGlobal st opts resp).1.activeSession = st.activeSession)
  ∧ (∀ u opts body e resps, u.truthy = true → body.error = some e →
      (legacyExecuteKw (some u) opts (.reply body :: resps)).1 = none)
  ∧ (∀ opts resps,
      (legacyExecuteKw none opts resps).2.1.head?
        = some (OdooCall.authenticate LEGACY_DB LEGACY_LOGIN LEGACY_API_KEY)) := by
  refine ⟨?_, ?_, ?_⟩
  · intro st opts resp
    rcases st with ⟨as, cb⟩
    cases as with
    | none => rfl
    | some session => cases cb with
      | none => rfl
      | some u => rfl
  · intro u opts body e resps hu he
    cases body with
    | mk result error =>
      cases he
      simp [legacyExecuteKw, legacyAuthenticate, hu]
  · intro opts resps
    cases hr : resps.head?.getD .netThrow with
    | netThrow => simp [legacyExecuteKw, legacyAuthenticate, hr]
    | reply body =>
      cases body with
      | mk result error =>
        cases error with
        | some e => simp [legacyExecuteKw, legacyAuthenticate, hr]
        | none =>
          cases result with
          | none => simp [legacyExecuteKw, legacyAuthenticate, hr]
          | some v =>
            cases v <;> simp [legacyExecuteKw, legacyAuthenticate, hr]

/-- C9 witness: a concrete remote error clears the legacy cached uid, and a
concrete remote error leaves the multi-tenant active session in place. -/
theorem C9_error_session_handling_witness :
    (legacyExecuteKw (some (.fin 9)) ⟨S "m", S "read", [], []⟩
        [errResp ⟨200, S "boom", none⟩]).1 = none
    ∧ (executeKwGlobal ⟨none, none⟩ ⟨S "m", S "read", [], []⟩
        (errResp ⟨200, S "boom", none⟩)).1.activeSession = none :=
  ⟨C9_error_session_handling.2.1 (.fin 9) ⟨S "m", S "read", [], []⟩
      ⟨none, some ⟨200, S "boom", none⟩⟩ ⟨200, S "boom", none⟩ [] (by decide) rfl,
   C9_error_session_handling.1 ⟨none, none⟩ ⟨S "m", S "read", [], []⟩
      (errResp ⟨200, S "boom", none⟩)⟩

/-- Every member of a list is an infix of its separator join. -/
theorem infixStr_joinWithSep (sep : Str) :
    ∀ (l : List Str), ∀ a ∈ l, infixStr a (joinWithSep sep l) := by
  intro l
  induction l with
  | nil => simp
  | cons b t ih =>
    intro a ha
    cases t with
    | nil =>
      rcases List.mem_singleton.mp ha with rfl
      exact ⟨[], [], by simp [joinWithSep]⟩
    | cons c r =>
      rcases List.mem_cons.mp ha with rfl | hmem
      · exact ⟨[], sep ++ joinWithSep sep (c :: r), by simp [joinWithSep]⟩
      · rcases ih a hmem with ⟨pre, post, hpp⟩
        exact ⟨b ++ sep ++ pre, post, by simp [joinWithSep, hpp]⟩

/-- A present, non-empty optional string survives the truthiness filter. -/
theorem mem_filterTruthyParts :
    ∀ (parts : List (Option Str)) (s : Str),
      some s ∈ parts → s.isEmpty = false → s ∈ filterTruthyParts parts := by
  intro parts
  induction parts with
  | nil => simp
  | cons p t ih =>
    intro s hs hne
    have hne' : s ≠ [] := by simpa using hne
    rcases List.mem_cons.mp hs with rfl | hmem
    · simp [filterTruthyParts, hne, hne']
    · cases p with
      | none => simpa [filterTruthyParts] using ih s hmem hne
      | some q =>
        by_cases hq : q.isEmpty = true
        · have hq' : q = [] := by simpa using hq
          simpa [filterTruthyParts, hq'] using ih s hmem hne
        · simp only [filterTruthyParts, List.foldr_cons]
          rw [if_neg hq]
          exact List.mem_cons_of_mem q
            (by simpa [filterTruthyParts] using ih s hmem hne)

/-- A present, non-empty part of a JSON-RPC error ends up inside the
extracted message. -/
theorem part_infix_extractErrorMessage (e : JsonRpcError) (s : Str)
    (hmem : some s ∈ [some e.message, e.data.bind (·.message), e.data.bind (·.debug)])
    (hne : s.isEmpty = false) :
    infixStr s (extractErrorMessage (some e)) := by
  have h1 : s ∈ filterTruthyParts
      [some e.message, e.data.bind (·.message), e.data.bind (·.debug)] :=
    mem_filterTruthyParts _ s hmem hne
  rcases infixStr_joinWithSep (S " | ") _ s h1 with ⟨pre, post, hpp⟩
  have hjoined : (joinWithSep (S " | ") (filterTruthyParts
      [some e.message, e.data.bind (·.message), e.data.bind (·.debug)])).isEmpty
      = false := by
    rw [hpp]
    cases s with
    | nil => simp at hne
    | cons c cs => simp
  simp only [extractErrorMessage, hjoined, Bool.false_eq_true, if_false, ite_false]
  exact ⟨pre, post, hpp⟩

/-- C6: every present non-empty component of a server-reported JSON-RPC
error — the top-level message, the nested data message, and the nested debug
trace — appears inside the `RemoteError` text `executeKwWith` throws, which
for the claim's example is exactly `"Access Denied | trace..."`. -/
theorem C6_remote_error_concatenation :
    (∀ e : JsonRpcError, e.message.isEmpty = false →
      infixStr e.message (extractErrorMessage (some e)))
  ∧ (∀ (e : JsonRpcError) (d : JsonRpcErrorData) (m : Str), e.data = some d →
      d.message = some m → m.isEmpty = false →
      infixStr m (extractErrorMessage (some e)))
  ∧ (∀ (e : JsonRpcError) (d : JsonRpcErrorData) (t : Str), e.data = some d →
      d.debug = some t → t.isEmpty = false →
      infixStr t (extractErrorMessage (some e)))
  ∧ extractErrorMessage (some ⟨200, S "Access Denied", some ⟨none, some (S "trace..."), none⟩⟩)
      = S "Access Denied | trace..."
  ∧ (∀ session opts result e,
      (executeKwWith session opts (.reply ⟨result, some e⟩)).2
        = .error (extractErrorMessage (some e))) := by
  refine ⟨?_, ?_, ?_, rfl, ?_⟩
  · intro e hne
    exact part_infix_extractErrorMessage e e.message (by simp) hne
  · intro e d m hd hm hne
    exact part_infix_extractErrorMessage e m (by simp [hd, hm]) hne
  · intro e d t hd ht hne
    exact part_infix_extractErrorMessage e t (by simp [hd, ht]) hne
  · intro session opts result e
    rfl

/-- C6 witness: both example strings are inside the extracted message of the
example response, and the thrown error carries that exact text. -/
theorem C6_remote_error_concatenation_witness :
    infixStr (S "Access Denied")
      (extractErrorMessage (some ⟨200, S "Access Denied",
        some ⟨none, some (S "trace..."), none⟩⟩))
    ∧ infixStr (S "trace...")
      (extractErrorMessage (some ⟨200, S "Access Denied",
        some ⟨none, some (S "trace..."), none⟩⟩))
    ∧ (executeKwWith ⟨S "db", .fin 2, S "pw"⟩ ⟨S "m", S "read", [], []⟩
        (.reply ⟨none, some ⟨200, S "Access Denied",
          some ⟨none, some (S "trace..."), none⟩⟩⟩)).2
      = .error (extractErrorMessage (some ⟨200, S "Access Denied",
          some ⟨none, some (S "trace..."), none⟩⟩)) :=
  ⟨C6_remote_error_concatenation.1 ⟨200, S "Access Denied",
      some ⟨none, some (S "trace..."), none⟩⟩ (by decide),
   C6_remote_error_concatenation.2.2.1 ⟨200, S "Access Denied",
      some ⟨none, some (S "trace..."), none⟩⟩ ⟨none, some (S "trace..."), none⟩
      (S "trace...") rfl rfl (by decide),
   C6_remote_error_concatenation.2.2.2.2 ⟨S "db", .fin 2, S "pw"⟩
      ⟨S "m", S "read", [], []⟩ none ⟨200, S "Access Denied",
      some ⟨none, some (S "trace..."), none⟩⟩⟩

/-- A truthy optional string is non-empty. -/
theorem strOptTruthy_ne_nil {o : Option Str} {e : Str}
    (ht : strOptTruthy o = true) (he : o = some e) : e ≠ [] := by
  subst he
  intro hnil
  subst hnil
  simp [strOptTruthy] at ht

/-- The path candidate of `extractDatabaseFromUrl` is never an empty
string (it is a surviving member of a non-emptiness filter). -/
theorem dbFromPath_ne_nil (path c : Str) (h : dbFromPath path = some c) : c ≠ [] := by
  unfold dbFromPath at h
  cases hl : (splitOnChar '/' (normalizePath path)).filter (fun s => !s.isEmpty) with
  | nil => rw [hl] at h; cases h
  | cons a t =>
    cases t with
    | nil =>
      rw [hl] at h
      replace h : (if RESERVED_PATH_SEGMENTS.contains (lowerStr a) = true
          then none else some a) = some c := h
      by_cases hr : RESERVED_PATH_SEGMENTS.contains (lowerStr a) = true
      · rw [if_pos hr] at h; cases h
      · rw [if_neg hr] at h
        cases h
        have ha : c ∈ (splitOnChar '/' (normalizePath path)).filter (fun s => !s.isEmpty) := by
          rw [hl]; simp
        simpa using (List.mem_filter.mp ha).2
    | cons b r => rw [hl] at h; cases h

/-- The subdomain candidate of `extractDatabaseFromUrl` is never an empty
string (its guard tests `!candidate.isEmpty`). -/
theorem dbFromHost_ne_nil (host c : Str) (h : dbFromHost host = some c) : c ≠ [] := by
  unfold dbFromHost at h
  cases hl : (splitOnChar '.' host).filter (fun s => !s.isEmpty) with
  | nil => rw [hl] at h; simp at h
  | cons a t =>
    rw [hl] at h
    by_cases h2 : (a :: t).length ≥ 2
    · rw [if_pos h2] at h
      by_cases h3 : (KNOWN_ODOO_SUFFIXES.contains
          (joinWithChar '.' ((a :: t).drop ((a :: t).length - 2)))
          || decide ((a :: t).length > 2)) = true
      · rw [if_pos h3] at h
        replace h : (if (!a.isEmpty && !(lowerStr a == S "www")) = true
            then some a else none) = some c := h
        by_cases h4 : (!a.isEmpty && !(lowerStr a == S "www")) = true
        · rw [if_pos h4] at h
          cases h
          simpa using (Bool.and_eq_true _ _ |>.mp h4).1
        · rw [if_neg h4] at h; cases h
      · rw [if_neg h3] at h; cases h
    · rw [if_neg h2] at h; cases h

/-- A database extracted from a URL is never an empty string: each of the
five sources is guarded by a non-emptiness test. -/
theorem extractDatabaseFromUrl_ne_nil (url e : Str)
    (h : extractDatabaseFromUrl url = some e) : e ≠ [] := by
  unfold extractDatabaseFromUrl at h
  cases hp : parseInputUrl url with
  | none => rw [hp] at h; cases h
  | some parsed =>
    rw [hp] at h
    replace h : (if strOptTruthy (dbParamOf (parseParams parsed.query)) = true then
        dbParamOf (parseParams parsed.query)
      else if strOptTruthy (dbParamOf (parseParams parsed.hash)) = true then
        dbParamOf (parseParams parsed.hash)
      else if (!strOptTruthy (dbParamOf (parseParams parsed.hash))
          && !(bareHashValue parsed.hash).isEmpty
          && !(bareHashValue parsed.hash).contains '='
          && !(bareHashValue parsed.hash).contains '&') = true then
        some (bareHashValue parsed.hash)
      else
        match dbFromPath parsed.path with
        | some c => some c
        | none => dbFromHost parsed.host) = some e := h
    by_cases h1 : strOptTruthy (dbParamOf (parseParams parsed.query)) = true
    · rw [if_pos h1] at h
      exact strOptTruthy_ne_nil h1 h
    · rw [if_neg h1] at h
      by_cases hh : strOptTruthy (dbParamOf (parseParams parsed.hash)) = true
      · rw [if_pos hh] at h
        exact strOptTruthy_ne_nil hh h
      · rw [if_neg hh] at h
        by_cases hb : (!strOptTruthy (dbParamOf (parseParams parsed.hash))
            && !(bareHashValue parsed.hash).isEmpty
            && !(bareHashValue parsed.hash).contains '='
            && !(bareHashValue parsed.hash).contains '&') = true
        · rw [if_pos hb] at h
          cases h
          simp only [Bool.and_eq_true] at hb
          simpa using hb.1.1.2
        · rw [if_neg hb] at h
          cases hc : dbFromPath parsed.path with
          | some c =>
            rw [hc] at h
            cases h
            exact dbFromPath_ne_nil _ _ hc
          | none =>
            rw [hc] at h
            exact dbFromHost_ne_nil _ _ h


/-- Characterization of a successful `signInAfterResolve` run: the database
was resolved to a truthy value, authentication yielded the uid, the profile
read succeeded, the stored session is rebuilt from those pieces, and the last
issued call is the `res.users` profile read with the five profile fields. -/
theorem signInAfterResolve_ok_spec
    (nurl login pw : Str) (resolved : Option Str) (trace0 : List OdooCall)
    (resps1 : List RpcResp) (tr : List OdooCall) (s : OdooSession)
    (h : signInAfterResolve nurl login pw resolved trace0 resps1 = (tr, .ok s)) :
    ∃ db uid userRecords trace1,
      resolved = some db
      ∧ authenticateWithClient db login pw (resps1.headD .netThrow) = (trace1, .ok uid)
      ∧ unwrapRpcResp (resps1.tail.headD .netThrow) = .ok userRecords
      ∧ s = ⟨nurl, db, login, pw, uid, buildUserProfile uid login userRecords⟩
      ∧ tr = trace0 ++ trace1
          ++ [OdooCall.executeKw db uid pw (S "res.users") (S "read")
               [.arr [.num uid]]
               (cleanObject (some [(S "fields", .arr (USER_PROFILE_FIELDS.map .str)),
                 (S "context", .obj (buildContext none))]))] := by
  unfold signInAfterResolve at h
  by_cases ht : strOptTruthy resolved = true
  · rw [if_neg (by simp [ht])] at h
    cases resolved with
    | none => simp [strOptTruthy] at ht
    | some db =>
      rcases ha : authenticateWithClient ((some db).getD []) login pw (resps1.headD .netThrow)
        with ⟨trace1, authRes⟩
      rw [ha] at h
      cases authRes with
      | error err => simp at h
      | ok uid =>
        simp only [executeKwWith] at h
        cases hu : unwrapRpcResp (resps1.tail.headD .netThrow) with
        | error err => rw [hu] at h; simp at h
        | ok userRecords =>
          rw [hu] at h
          simp only [Prod.mk.injEq, Except.ok.injEq] at h
          refine ⟨db, uid, userRecords, trace1, rfl, by simpa using ha, rfl,
            h.2.symm, ?_⟩
          rw [← h.1]
          simp
  · rw [if_pos (by simpa using ht)] at h
    simp at h

/-- C1: database resolution at sign-in follows the strict priority order
explicit argument → pre-normalization URL → single-database discovery: a
non-blank explicit argument resolves immediately with no discovery call; a
URL-extracted name is used exactly when the explicit argument is absent or
blank; the discovery request is issued exactly when both higher sources
yield nothing; a successful sign-in stores exactly the resolved database;
and when nothing resolves, sign-in fails with the `DatabaseRequired`
message. -/
theorem C1_database_resolution_priority :
    (∀ d url resps, (jsTrim d).isEmpty = false →
      resolveSignInDatabase (some d) url resps = ([], some (jsTrim d), resps))
  ∧ (∀ database url resps e,
      (database = none ∨ ∃ d, database = some d ∧ (jsTrim d).isEmpty = true) →
      extractDatabaseFromUrl url = some e →
      resolveSignInDatabase database url resps = ([], some e, resps))
  ∧ (∀ database url resps,
      (database = none ∨ ∃ d, database = some d ∧ (jsTrim d).isEmpty = true) →
      extractDatabaseFromUrl url = none →
      resolveSignInDatabase database url resps
        = ([OdooCall.dbList], (discoverDatabase (resps.headD .netThrow)).2, resps.tail))
  ∧ (∀ p resps tr s, signInToOdoo p resps = (tr, .ok s) →
      some s.database = (resolveSignInDatabase p.database p.serverUrl resps).2.1)
  ∧ (∀ p resps u, normalizeServerUrl p.serverUrl = .ok u →
      strOptTruthy (resolveSignInDatabase p.database p.serverUrl resps).2.1 = false →
      (signInToOdoo p resps).2 = .error
        (S "Could not determine the Odoo database. Please provide it in the advanced settings.")) := by
  have hexp_blank : ∀ (database : Option Str),
      (database = none ∨ ∃ d, database = some d ∧ (jsTrim d).isEmpty = true) →
      strOptTruthy (match database with
        | none => none
        | some d => if d.isEmpty then some d else some (jsTrim d)) = false := by
    intro database hdb
    rcases hdb with rfl | ⟨d, rfl, hblank⟩
    · rfl
    · show strOptTruthy (if d.isEmpty = true then some d else some (jsTrim d)) = false
      by_cases hd : d.isEmpty = true
      · rw [if_pos hd]
        simp [strOptTruthy, hd]
      · rw [if_neg hd]
        simp [strOptTruthy, hblank]
  refine ⟨?_, ?_, ?_, ?_, ?_⟩
  · intro d url resps h
    have hd : d.isEmpty = false := by
      cases d with
      | nil => simp [jsTrim] at h
      | cons c t => rfl
    have h' : jsTrim d ≠ [] := by simpa using h
    unfold resolveSignInDatabase
    simp [hd, strOptTruthy, h']
  · intro database url resps e hdb hex
    have he' : e ≠ [] := extractDatabaseFromUrl_ne_nil url e hex
    unfold resolveSignInDatabase
    rw [if_neg (by rw [hexp_blank database hdb]; simp)]
    rw [hex]
    rw [if_pos (by simpa [strOptTruthy] using he')]
  · intro database url resps hdb hex
    unfold resolveSignInDatabase
    rw [if_neg (by rw [hexp_blank database hdb]; simp)]
    rw [hex]
    rfl
  · intro p resps tr s h
    unfold signInToOdoo at h
    cases hn : normalizeServerUrl p.serverUrl with
    | error err => rw [hn] at h; simp at h
    | ok u =>
      rw [hn] at h
      rcases hr : resolveSignInDatabase p.database p.serverUrl resps
        with ⟨trace0, resolved, resps1⟩
      rw [hr] at h
      replace h : signInAfterResolve u (jsTrim p.username) p.password resolved trace0 resps1
          = (tr, .ok s) := h
      rcases signInAfterResolve_ok_spec u (jsTrim p.username) p.password resolved trace0
          resps1 tr s h with ⟨db, uid, userRecords, trace1, hres, _, _, hs, _⟩
      subst hs
      rw [hres]
  · intro p resps u hn hres
    unfold signInToOdoo
    rw [hn]
    rcases hr : resolveSignInDatabase p.database p.serverUrl resps
      with ⟨trace0, resolved, resps1⟩
    rw [hr] at hres
    show (signInAfterResolve u (jsTrim p.username) p.password resolved trace0 resps1).2
        = .error (S "Could not determine the Odoo database. Please provide it in the advanced settings.")
    unfold signInAfterResolve
    rw [if_pos (by simpa using hres)]

/-- C1 witness: concrete applications of the priority conjuncts — an explicit
database beats a URL-embedded one, a URL-embedded one is used when the
explicit argument is blank, and discovery is consulted only when both are
absent. -/
theorem C1_database_resolution_priority_witness :
    resolveSignInDatabase (some (S " acme ")) (S "https://x.co#db=urldb") []
      = ([], some (S "acme"), [])
    ∧ resolveSignInDatabase (some (S "  ")) (S "https://x.co#db=urldb") []
      = ([], some (S "urldb"), [])
    ∧ resolveSignInDatabase none (S "https://x.co") [okResp (.arr [.str (S "only")])]
      = ([OdooCall.dbList], some (S "only"), []) := by
  refine ⟨?_, ?_, ?_⟩
  · have := C1_database_resolution_priority.1 (S " acme ") (S "https://x.co#db=urldb") []
      (by decide)
    simpa using this
  · exact C1_database_resolution_priority.2.1 (some (S "  ")) (S "https://x.co#db=urldb") []
      (S "urldb") (Or.inr ⟨S "  ", rfl, by decide⟩) (by decide)
  · have := C1_database_resolution_priority.2.2.1 none (S "https://x.co")
      [okResp (.arr [.str (S "only")])] (Or.inl rfl) (by decide)
    simpa using this

/-- C8 counterexample: with a blank remote name/email and a remote `login`
field different from the submitted username, the profile's email becomes the
remote login, not the submitted username the claim predicts. -/
theorem C8_counterexample_email_not_username :
    (buildUserProfile (.fin 7) (S "me@x")
      (.arr [.obj [(S "name", .str (S "")), (S "email", .str (S "")),
                   (S "login", .str (S "other@x"))]])).email = some (S "other@x")
    ∧ some (S "other@x") ≠ some (S "me@x") := ⟨rfl, by decide⟩

/-- C8 (amended): a successful sign-in's last issued call is a `res.users`
read for the fields {name, email, login, partner_id, company_id} and the
stored profile is built from its result; the profile name falls back to the
submitted username when the remote name is not a non-blank string, while the
profile email falls back to the trimmed remote `login` field when the remote
email is not a non-blank string, and is absent when that login is not a
string. -/
theorem C8_profile_read_and_fallbacks :
    (∀ p resps tr s, signInToOdoo p resps = (tr, .ok s) →
      ∃ pre userRecords,
        tr = pre ++ [OdooCall.executeKw s.database s.uid p.password (S "res.users")
          (S "read") [.arr [.num s.uid]]
          [(S "fields", .arr (USER_PROFILE_FIELDS.map .str)),
           (S "context", .obj DEFAULT_CONTEXT)]]
        ∧ s.user = buildUserProfile s.uid s.username userRecords)
  ∧ (∀ uid login v rest s', v.get (S "name") = .str s' → (jsTrim s').isEmpty = false →
      (buildUserProfile uid login (.arr (v :: rest))).name = jsTrim s')
  ∧ (∀ uid login v rest, (∀ s', v.get (S "name") = .str s' → (jsTrim s').isEmpty = true) →
      (buildUserProfile uid login (.arr (v :: rest))).name = login)
  ∧ (∀ uid login v rest t,
      (∀ s', v.get (S "email") = .str s' → (jsTrim s').isEmpty = true) →
      v.get (S "login") = .str t →
      (buildUserProfile uid login (.arr (v :: rest))).email = some (jsTrim t))
  ∧ (∀ uid login v rest,
      (∀ s', v.get (S "email") = .str s' → (jsTrim s').isEmpty = true) →
      (∀ t, v.get (S "login") ≠ .str t) →
      (buildUserProfile uid login (.arr (v :: rest))).email = none) := by
  refine ⟨?_, ?_, ?_, ?_, ?_⟩
  · intro p resps tr s h
    unfold signInToOdoo at h
    cases hn : normalizeServerUrl p.serverUrl with
    | error err => rw [hn] at h; simp at h
    | ok u =>
      rw [hn] at h
      rcases hr : resolveSignInDatabase p.database p.serverUrl resps
        with ⟨trace0, resolved, resps1⟩
      rw [hr] at h
      replace h : signInAfterResolve u (jsTrim p.username) p.password resolved trace0 resps1
          = (tr, .ok s) := h
      rcases signInAfterResolve_ok_spec u (jsTrim p.username) p.password resolved trace0
          resps1 tr s h with ⟨db, uid, userRecords, trace1, _, _, _, hs, htr⟩
      subst hs
      exact ⟨trace0 ++ trace1, userRecords, htr, rfl⟩
  · intro uid login v rest s' hv hne
    unfold buildUserProfile
    simp [hv, hne]
  · intro uid login v rest hblank
    unfold buildUserProfile
    cases hv : v.get (S "name") with
    | str s' => simp [hv, hblank s' hv]
    | undef => simp [hv]
    | null => simp [hv]
    | bool b => simp [hv]
    | num n => simp [hv]
    | arr l => simp [hv]
    | obj f => simp [hv]
  · intro uid login v rest t hblank hlogin
    unfold buildUserProfile
    cases hv : v.get (S "email") with
    | str s' => simp [hv, hblank s' hv, hlogin]
    | undef => simp [hv, hlogin]
    | null => simp [hv, hlogin]
    | bool b => simp [hv, hlogin]
    | num n => simp [hv, hlogin]
    | arr l => simp [hv, hlogin]
    | obj f => simp [hv, hlogin]
  · intro uid login v rest hblank hnl
    unfold buildUserProfile
    cases hl : v.get (S "login") with
    | str t => exact absurd hl (hnl t)
    | undef =>
      cases hv : v.get (S "email") with
      | str s' => simp [hv, hblank s' hv, hl]
      | undef => simp [hv, hl]
      | null => simp [hv, hl]
      | bool b => simp [hv, hl]
      | num n => simp [hv, hl]
      | arr l => simp [hv, hl]
      | obj f => simp [hv, hl]
    | null =>
      cases hv : v.get (S "email") with
      | str s' => simp [hv, hblank s' hv, hl]
      | undef => simp [hv, hl]
      | null => simp [hv, hl]
      | bool b => simp [hv, hl]
      | num n => simp [hv, hl]
      | arr l => simp [hv, hl]
      | obj f => simp [hv, hl]
    | bool b =>
      cases hv : v.get (S "email") with
      | str s' => simp [hv, hblank s' hv, hl]
      | undef => simp [hv, hl]
      | null => simp [hv, hl]
      | bool b2 => simp [hv, hl]
      | num n => simp [hv, hl]
      | arr l => simp [hv, hl]
      | obj f => simp [hv, hl]
    | num n =>
      cases hv : v.get (S "email") with
      | str s' => simp [hv, hblank s' hv, hl]
      | undef => simp [hv, hl]
      | null => simp [hv, hl]
      | bool b => simp [hv, hl]
      | num n2 => simp [hv, hl]
      | arr l => simp [hv, hl]
      | obj f => simp [hv, hl]
    | arr l =>
      cases hv : v.get (S "email") with
      | str s' => simp [hv, hblank s' hv, hl]
      | undef => simp [hv, hl]
      | null => simp [hv, hl]
      | bool b => simp [hv, hl]
      | num n => simp [hv, hl]
      | arr l2 => simp [hv, hl]
      | obj f => simp [hv, hl]
    | obj f =>
      cases hv : v.get (S "email") with
      | str s' => simp [hv, hblank s' hv, hl]
      | undef => simp [hv, hl]
      | null => simp [hv, hl]
      | bool b => simp [hv, hl]
      | num n => simp [hv, hl]
      | arr l => simp [hv, hl]
      | obj f2 => simp [hv, hl]

/-- C8 witness: a concrete successful sign-in exhibiting the read call and
the profile construction, and concrete fallback applications. -/
theorem C8_profile_read_and_fallbacks_witness :
    (∃ pre,
      (signInToOdoo ⟨S "https://my.co#db=acme", S " me ", S "pw", none⟩
        [okResp (.num (.fin 7)),
         okResp (.arr [.obj [(S "name", .str (S "Mo")), (S "email", .str (S "mo@x")),
           (S "login", .str (S "me")), (S "partner_id", .arr [.num (.fin 3), .str (S "Mo")]),
           (S "company_id", .arr [.num (.fin 1), .str (S "C")])]])]).1
        = pre ++ [OdooCall.executeKw (S "acme") (.fin 7) (S "pw") (S "res.users")
            (S "read") [.arr [.num (.fin 7)]]
            [(S "fields", .arr (USER_PROFILE_FIELDS.map .str)),
             (S "context", .obj DEFAULT_CONTEXT)]])
    ∧ (buildUserProfile (.fin 7) (S "me")
        (.arr [.obj [(S "name", .str (S ""))]])).name = S "me" := by
  constructor
  · have h : signInToOdoo ⟨S "https://my.co#db=acme", S " me ", S "pw", none⟩
        [okResp (.num (.fin 7)),
         okResp (.arr [.obj [(S "name", .str (S "Mo")), (S "email", .str (S "mo@x")),
           (S "login", .str (S "me")), (S "partner_id", .arr [.num (.fin 3), .str (S "Mo")]),
           (S "company_id", .arr [.num (.fin 1), .str (S "C")])]])]
      = ([OdooCall.authenticate (S "acme") (S "me") (S "pw"),
          OdooCall.executeKw (S "acme") (.fin 7) (S "pw") (S "res.users") (S "read")
            [.arr [.num (.fin 7)]]
            [(S "fields", .arr (USER_PROFILE_FIELDS.map .str)),
             (S "context", .obj DEFAULT_CONTEXT)]],
         .ok ⟨S "https://my.co", S "acme", S "me", S "pw", .fin 7,
           ⟨.fin 7, S "Mo", some (S "mo@x"), some (.fin 3), some (.fin 1)⟩⟩) := rfl
    rcases C8_profile_read_and_fallbacks.1 _ _ _ _ h with ⟨pre, userRecords, htr, _⟩
    exact ⟨pre, htr⟩
  · exact C8_profile_read_and_fallbacks.2.2.1 (.fin 7) (S "me")
      (.obj [(S "name", .str (S ""))]) []
      (by intro s' hs'; cases hs'; rfl)

/-- `splitOnChar` never produces the empty list of segments. -/
theorem splitOnChar_ne_nil (sep : Char) (l : Str) : splitOnChar sep l ≠ [] := by
  cases l with
  | nil => simp [splitOnChar]
  | cons c rest =>
    simp only [splitOnChar]
    cases hs : splitOnChar sep rest with
    | nil => simp
    | cons a b => by_cases hc : (c == sep) = true <;> simp [hc]

/-- No segment produced by `splitOnChar` contains the separator. -/
theorem splitOnChar_no_sep (sep : Char) (l : Str) :
    ∀ seg ∈ splitOnChar sep l, sep ∉ seg := by
  induction l with
  | nil =>
    intro seg h
    simp only [splitOnChar, List.mem_singleton] at h
    subst h
    simp
  | cons c rest ih =>
    intro seg h
    simp only [splitOnChar] at h
    cases hs : splitOnChar sep rest with
    | nil => exact absurd hs (splitOnChar_ne_nil sep rest)
    | cons a b =>
      rw [hs] at h
      replace h : seg ∈ (if (c == sep) = true then [] :: a :: b else (c :: a) :: b) := h
      by_cases hc : (c == sep) = true
      · rw [if_pos hc] at h
        rcases List.mem_cons.mp h with rfl | h2
        · simp
        · exact ih seg (by rw [hs]; exact h2)
      · rw [if_neg hc] at h
        rcases List.mem_cons.mp h with rfl | h2
        · intro hmem
          rcases List.mem_cons.mp hmem with rfl | hmem2
          · simp at hc
          · exact ih a (by rw [hs]; simp) hmem2
        · exact ih seg (by rw [hs]; exact List.mem_cons_of_mem a h2)

/-- A value delivered by `getLast?` is a member of the list. -/
theorem mem_of_getLast? {l : Str} {a : Char} (h : l.getLast? = some a) : a ∈ l := by
  induction l with
  | nil => simp at h
  | cons b t ih =>
    cases t with
    | nil =>
      simp only [List.getLast?_singleton, Option.some.injEq] at h
      subst h
      simp
    | cons c r =>
      rw [List.getLast?_cons_cons] at h
      exact List.mem_cons_of_mem b (ih h)

/-- The join of a non-empty first segment starts with that segment's head. -/
theorem joinWithChar_head? (a : Str) (t : List Str) (ha : a ≠ []) :
    (joinWithChar '/' (a :: t)).head? = a.head? := by
  cases t with
  | nil => rfl
  | cons b r =>
    show (a ++ '/' :: joinWithChar '/' (b :: r)).head? = a.head?
    cases a with
    | nil => exact absurd rfl ha
    | cons x xs => rfl

/-- A slash-free string has no double slash. -/
theorem hasDoubleSlash_of_no_slash (s : Str) (h : '/' ∉ s) : hasDoubleSlash s = false := by
  induction s with
  | nil => rfl
  | cons c t ih =>
    cases t with
    | nil => rfl
    | cons d r =>
      show ((c == '/' && d == '/') || hasDoubleSlash (d :: r)) = false
      have hc : (c == '/') = false := by
        simp only [beq_eq_false_iff_ne, ne_eq]
        intro hcc
        exact h (by simp [hcc])
      rw [hc]
      simp only [Bool.false_and, Bool.false_or]
      exact ih (fun hm => h (List.mem_cons_of_mem c hm))

/-- Prepending a slash-free string does not affect double-slash detection. -/
theorem hasDoubleSlash_append (s r : Str) (h : '/' ∉ s) :
    hasDoubleSlash (s ++ r) = hasDoubleSlash r := by
  induction s with
  | nil => rfl
  | cons c t ih =>
    have hc : (c == '/') = false := by
      simp only [beq_eq_false_iff_ne, ne_eq]
      intro hcc
      exact h (by simp [hcc])
    have ht : '/' ∉ t := fun hm => h (List.mem_cons_of_mem c hm)
    cases t with
    | nil =>
      cases r with
      | nil => rfl
      | cons d q =>
        show ((c == '/' && d == '/') || hasDoubleSlash (d :: q)) = hasDoubleSlash (d :: q)
        rw [hc]
        simp
    | cons d q =>
      show ((c == '/' && d == '/') || hasDoubleSlash ((d :: q) ++ r)) = hasDoubleSlash r
      rw [hc, ih ht]
      simp

/-- A value delivered by `head?` is a member of the list. -/
theorem mem_of_head? {l : Str} {a : Char} (h : l.head? = some a) : a ∈ l := by
  cases l with
  | nil => simp at h
  | cons b t =>
    simp only [List.head?_cons, Option.some.injEq] at h
    subst h
    simp

/-- `getLast?` of a non-empty list is some value. -/
theorem getLast?_cons_isSome (y : Char) (j : Str) : ∃ z, (y :: j).getLast? = some z := by
  induction j generalizing y with
  | nil => exact ⟨y, rfl⟩
  | cons b t ih =>
    rcases ih b with ⟨z, hz⟩
    exact ⟨z, by rw [List.getLast?_cons_cons]; exact hz⟩

/-- Joining non-empty slash-free segments with `/` yields a string with no
double slash whose first and last characters are not slashes. -/
theorem joinWithChar_props : ∀ (segs : List Str),
    (∀ s ∈ segs, s ≠ [] ∧ '/' ∉ s) →
    hasDoubleSlash (joinWithChar '/' segs) = false
    ∧ (∀ c, (joinWithChar '/' segs).head? = some c → c ≠ '/')
    ∧ (∀ c, (joinWithChar '/' segs).getLast? = some c → c ≠ '/') := by
  intro segs
  induction segs with
  | nil =>
    intro _
    exact ⟨rfl, by intro c hc; simp [joinWithChar] at hc,
      by intro c hc; simp [joinWithChar] at hc⟩
  | cons a t ih =>
    intro h
    have ha := h a (by simp)
    cases t with
    | nil =>
      refine ⟨hasDoubleSlash_of_no_slash a ha.2, ?_, ?_⟩
      · intro c hc
        replace hc : a.head? = some c := hc
        intro hx
        subst hx
        exact ha.2 (mem_of_head? hc)
      · intro c hc
        replace hc : a.getLast? = some c := hc
        intro hx
        subst hx
        exact ha.2 (mem_of_getLast? hc)
    | cons b r =>
      rcases ih (fun s hs => h s (List.mem_cons_of_mem a hs)) with ⟨ihds, ihhead, ihlast⟩
      have hb := h b (by simp)
      have hjoin : joinWithChar '/' (a :: b :: r) = a ++ '/' :: joinWithChar '/' (b :: r) := rfl
      cases hj : joinWithChar '/' (b :: r) with
      | nil =>
        have hh := joinWithChar_head? b r hb.1
        rw [hj] at hh
        cases hbe : b with
        | nil => exact absurd hbe hb.1
        | cons y ys => rw [hbe] at hh; simp at hh
      | cons jy jt =>
        have hjy : jy ≠ '/' := ihhead jy (by rw [hj]; rfl)
        have hjyb : (jy == '/') = false := by
          simpa [beq_eq_false_iff_ne] using hjy
        refine ⟨?_, ?_, ?_⟩
        · rw [hjoin, hj]
          rw [hasDoubleSlash_append a ('/' :: jy :: jt) ha.2]
          show (('/' == '/' && jy == '/') || hasDoubleSlash (jy :: jt)) = false
          rw [hjyb]
          have hdsj : hasDoubleSlash (jy :: jt) = false := by rw [← hj]; exact ihds
          rw [hdsj]
          simp
        · intro c hc
          rw [hjoin] at hc
          cases hae : a with
          | nil => exact absurd hae ha.1
          | cons x xs =>
            rw [hae] at hc
            replace hc : some x = some c := hc
            simp only [Option.some.injEq] at hc
            subst hc
            intro hx
            exact ha.2 (by rw [hae]; simp [hx])
        · intro c hc
          rw [hjoin, hj] at hc
          rw [List.getLast?_append] at hc
          rw [List.getLast?_cons_cons] at hc
          rcases getLast?_cons_isSome jy jt with ⟨z, hz⟩
          rw [hz] at hc
          replace hc : (some z : Option Char) = some c := hc
          simp only [Option.some.injEq] at hc
          subst hc
          exact ihlast z (by rw [hj]; exact hz)

/-- The normalized path has no duplicate slashes and no trailing slash. -/
theorem normalizePath_clean (path : Str) :
    hasDoubleSlash (normalizePath path) = false
    ∧ (∀ c, (normalizePath path).getLast? = some c → c ≠ '/') := by
  unfold normalizePath
  by_cases h1 : path.isEmpty = true
  · rw [if_pos h1]
    exact ⟨rfl, by intro c hc; simp at hc⟩
  · rw [if_neg h1]
    by_cases h2 : (jsTrim path).isEmpty = true
    · rw [if_pos h2]
      exact ⟨rfl, by intro c hc; simp at hc⟩
    · rw [if_neg h2]
      cases hsegs : (splitOnChar '/' (trimTrailingSlash (collapseSlashes (jsTrim path)))).filter
          (fun s => !s.isEmpty) with
      | nil =>
        exact ⟨rfl, by intro c hc; simp at hc⟩
      | cons a t =>
        rw [if_neg (by simp)]
        have hprops : ∀ s ∈ a :: t, s ≠ [] ∧ '/' ∉ s := by
          intro s hs
          have hmem : s ∈ (splitOnChar '/'
              (trimTrailingSlash (collapseSlashes (jsTrim path)))).filter
              (fun s => !s.isEmpty) := by
            rw [hsegs]; exact hs
          refine ⟨by simpa using (List.mem_filter.mp hmem).2, ?_⟩
          exact splitOnChar_no_sep '/' _ s (List.mem_filter.mp hmem).1
        rcases joinWithChar_props (a :: t) hprops with ⟨hds, hhead, hlast⟩
        have ha := hprops a (by simp)
        cases hj : joinWithChar '/' (a :: t) with
        | nil =>
          have hh := joinWithChar_head? a t ha.1
          rw [hj] at hh
          cases hae : a with
          | nil => exact absurd hae ha.1
          | cons y ys => rw [hae] at hh; simp at hh
        | cons jy jt =>
          have hjy : jy ≠ '/' := hhead jy (by rw [hj]; rfl)
          have hjyb : (jy == '/') = false := by
            simpa [beq_eq_false_iff_ne] using hjy
          constructor
          · show (('/' == '/' && jy == '/') || hasDoubleSlash (jy :: jt)) = false
            rw [hjyb]
            have hdsj : hasDoubleSlash (jy :: jt) = false := by rw [← hj]; exact hds
            rw [hdsj]
            simp
          · intro c hc
            rw [List.getLast?_cons_cons] at hc
            exact hlast c (by rw [hj]; exact hc)

/-- `startsWithStr` accepts its own prefix. -/
theorem startsWithStr_append_self (p x : Str) : startsWithStr p (p ++ x) = true := by
  induction p with
  | nil => rfl
  | cons c t ih =>
    show (c == c && startsWithStr t (t ++ x)) = true
    simp [ih]

/-- The fields of a successful `parseHostRest`: the scheme is passed through
and the host/path are the leading character-class scans. -/
theorem parseHostRest_fields (protocol rest : Str) (parsed : ParsedInputUrl)
    (h : parseHostRest protocol rest = some parsed) :
    parsed.protocol = protocol
    ∧ parsed.host = rest.takeWhile isHostChar
    ∧ parsed.path = (if (rest.dropWhile isHostChar).head? == some '/'
        then (rest.dropWhile isHostChar).takeWhile isPathChar else []) := by
  simp only [parseHostRest] at h
  by_cases hh : (rest.takeWhile isHostChar).isEmpty = true
  · rw [if_pos hh] at h
    cases h
  · rw [if_neg hh] at h
    simp only [Option.some.injEq] at h
    subst h
    exact ⟨rfl, rfl, rfl⟩

/-- Every character of a parsed path belongs to the `[^?#]` class: the query
string and the fragment never leak into the path. -/
theorem parsed_path_chars (protocol rest : Str) (parsed : ParsedInputUrl)
    (h : parseHostRest protocol rest = some parsed) :
    ∀ c ∈ parsed.path, isPathChar c = true := by
  intro c hc
  rw [(parseHostRest_fields protocol rest parsed h).2.2] at hc
  by_cases hp : ((rest.dropWhile isHostChar).head? == some '/') = true
  · rw [if_pos hp] at hc
    exact List.mem_takeWhile_imp hc
  · rw [if_neg hp] at hc
    simp at hc

/-- When the input has no scheme, `parseInputUrl` defaults it to `https`. -/
theorem parseInputUrl_protocol (value : Str) (parsed : ParsedInputUrl)
    (h : parseInputUrl value = some parsed)
    (hproto : hasHttpProto (jsTrim value) = false) :
    parsed.protocol = S "https" := by
  simp only [parseInputUrl] at h
  by_cases he : (jsTrim value).isEmpty = true
  · rw [if_pos he] at h
    cases h
  · rw [if_neg he] at h
    have hens : ensureProtocol (jsTrim value) = S "https://" ++ jsTrim value := by
      unfold ensureProtocol
      rw [if_neg (by simp [hproto])]
    rw [hens] at h
    have hcond : startsWithStr (S "https://") (lowerStr (S "https://" ++ jsTrim value)) = true := by
      have hlow : lowerStr (S "https://" ++ jsTrim value)
          = S "https://" ++ lowerStr (jsTrim value) := by
        unfold lowerStr
        rw [List.map_append]
        congr 1
      rw [hlow]
      exact startsWithStr_append_self _ _
    have hdrop : dropProto (S "https://" ++ jsTrim value)
        = some (S "https", (S "https://" ++ jsTrim value).drop 8) := by
      unfold dropProto
      rw [if_pos hcond]
    rw [hdrop] at h
    replace h : parseHostRest (S "https") ((S "https://" ++ jsTrim value).drop 8)
        = some parsed := h
    exact (parseHostRest_fields _ _ _ h).1

/-- C3: server-URL normalization rebuilds `scheme://host` plus the cleaned
path — the scheme defaults to `https` when none is given, the cleaned path
has no duplicate slashes, no trailing slash and no query/fragment characters,
the query string and the fragment are dropped, the claim's example normalizes
as stated, and empty or unparseable input fails with the respective
`InvalidAddress`-class message. -/
theorem C3_normalize_server_url :
    (∀ raw parsed, parseInputUrl (jsTrim raw) = some parsed →
      normalizeServerUrl raw
        = .ok (parsed.protocol ++ S "://" ++ parsed.host ++ normalizePath parsed.path))
  ∧ (∀ raw parsed, parseInputUrl raw = some parsed →
      hasHttpProto (jsTrim raw) = false → parsed.protocol = S "https")
  ∧ (∀ path, hasDoubleSlash (normalizePath path) = false)
  ∧ (∀ path c, (normalizePath path).getLast? = some c → c ≠ '/')
  ∧ (∀ raw parsed c, parseInputUrl raw = some parsed → c ∈ parsed.path →
      isPathChar c = true)
  ∧ normalizeServerUrl (S "my.co/app/?x=1#db=acme") = .ok (S "https://my.co/app")
  ∧ (∀ raw, (jsTrim raw).isEmpty = true →
      normalizeServerUrl raw = .error (S "Server address is required."))
  ∧ (∀ raw, (jsTrim raw).isEmpty = false → parseInputUrl (jsTrim raw) = none →
      normalizeServerUrl raw = .error (S "Invalid server address.")) := by
  refine ⟨?_, ?_, fun path => (normalizePath_clean path).1,
    fun path => (normalizePath_clean path).2, ?_, rfl, ?_, ?_⟩
  · intro raw parsed h
    unfold normalizeServerUrl
    by_cases he : (jsTrim raw).isEmpty = true
    · exfalso
      have hnil : jsTrim raw = [] := by simpa using he
      rw [hnil] at h
      simp [parseInputUrl, jsTrim] at h
    · rw [if_neg he, h]
  · intro raw parsed h hproto
    exact parseInputUrl_protocol raw parsed h hproto
  · intro raw parsed c h hc
    simp only [parseInputUrl] at h
    by_cases he : (jsTrim raw).isEmpty = true
    · rw [if_pos he] at h
      cases h
    · rw [if_neg he] at h
      cases hd : dropProto (ensureProtocol (jsTrim raw)) with
      | none => rw [hd] at h; cases h
      | some pr =>
        rcases pr with ⟨protocol, rest⟩
        rw [hd] at h
        replace h : parseHostRest protocol rest = some parsed := h
        exact parsed_path_chars protocol rest parsed h c hc
  · intro raw he
    unfold normalizeServerUrl
    rw [if_pos he]
  · intro raw he hp
    unfold normalizeServerUrl
    rw [if_neg (by simp [he]), hp]

/-- C3 witness: concrete applications — the claim's example through the
formula conjunct, a blank input failing, and path cleanliness on a
slash-heavy path. -/
theorem C3_normalize_server_url_witness :
    normalizeServerUrl (S "my.co/app/?x=1#db=acme")
      = .ok (S "https" ++ S "://" ++ S "my.co" ++ normalizePath (S "/app/"))
    ∧ normalizeServerUrl (S " ") = .error (S "Server address is required.")
    ∧ hasDoubleSlash (normalizePath (S "//a//b//")) = false :=
  ⟨C3_normalize_server_url.1 (S "my.co/app/?x=1#db=acme")
      ⟨S "https", S "my.co", S "/app/", S "?x=1", S "#db=acme"⟩ rfl,
   C3_normalize_server_url.2.2.2.2.2.2.1 (S " ") (by decide),
   C3_normalize_server_url.2.2.1 (S "//a//b//")⟩
